import Mathlib

/-!
Shallow embedding of the canteen slot-reservation engine
(`src/services/reservactionService.js`, `src/services/canteenService.js`)
of the levi9_challenge repository, together with proofs about its
capacity accounting, double-booking prevention and cancellation logic.

Modelling conventions, read against the JavaScript source:

* All stored values are kept at their parsed types (the service parses
  every Redis string back with `parseInt` before use, and validation
  guarantees the parses succeed on every reachable value).
* Redis keys `slot:{canteenId}:{date}:{time}` and
  `studentSlot:{date}:{time}` are modelled as structured keys
  (`SlotKey`, `StudentSlotKey`).  On every value that reaches key
  construction the components are validated (`canteenId` a positive
  integer, `date` matching `YYYY-MM-DD`, `time` matching `HH:MM`), so
  the string rendering of a key is injective in its components and the
  structured representation is faithful.
* JavaScript string comparison (`<`, `>=` on `HH:MM` strings) is
  lexicographic comparison of UTF-16 code units; `jsLt` implements
  exactly that on the character lists.
* `Number(...)` applied to the all-digit pieces of a split time string
  is modelled by `jsToNum`; on the validated inputs that reach it the
  two agree (`Number` of a digit string is its decimal value).
* `new Date(a) < new Date(b)` on valid `YYYY-MM-DDTHH:MM:SS` strings
  orders exactly as lexicographic string comparison, which is how the
  past-date check is modelled (the current instant is the `now`
  parameter, rendered in the same format).
* Each `redisClient.multi()...exec()` block executes atomically; the
  sequential semantics below applies its effect as one step.  The two
  separate `multi` blocks of `createReservation` are kept as the two
  separate functions `checkPhase` and `applyCreate` so that interleavings
  of concurrent callers can be expressed.
-/

/-- A JavaScript runtime value as far as the service's strict (`!==`)
comparisons are concerned: a string or a number. -/
inductive JSVal where
  | str : String → JSVal
  | num : Int → JSVal
deriving DecidableEq, Repr

/-- JavaScript strict equality `===` restricted to the two value shapes
above: values of different types are never equal. -/
def jsStrictEq : JSVal → JSVal → Bool
  | .str a, .str b => a == b
  | .num a, .num b => a == b
  | _, _ => false

/-- JavaScript `String(x)`. -/
def jsToString : JSVal → String
  | .str s => s
  | .num n => toString n

/-- JS `<` on two strings: lexicographic comparison of code units. -/
def charLtB (a b : Char) : Bool := a.toNat < b.toNat

/-- Lexicographic order on character lists, mirroring JS string order. -/
def strLtB : List Char → List Char → Bool
  | [], [] => false
  | [], _ :: _ => true
  | _ :: _, [] => false
  | a :: as, b :: bs => if charLtB a b then true else if charLtB b a then false else strLtB as bs

/-- JS `a < b` on strings. -/
def jsLt (a b : String) : Bool := strLtB a.data b.data

/-- JS `s.split(sep)` for a one-character separator. -/
def jsSplit (sep : Char) (s : String) : List String :=
  (s.data.splitOn sep).map String.mk

/-- JS `Number(s)` on the strings this service feeds it (pieces of a
split, digit-only time string; `Number('') = 0`).  Non-digit input maps
to 0 where JS would produce `NaN`; no validated input reaches that
case. -/
def jsToNum (s : String) : Nat :=
  if s.data.all (fun c => c.isDigit) then
    s.data.foldl (fun n c => n * 10 + (c.toNat - 48)) 0
  else 0

/-- JS `String(n).padStart(2, '0')`. -/
def pad2 (n : Nat) : String := if n < 10 then "0" ++ toString n else toString n

/-- The two numeric components of a `HH:MM` string:
`time.split(':').map(Number)` destructured as `[hours, minutes]`. -/
def parseTimeParts (time : String) : Nat × Nat :=
  match (jsSplit ':' time).map jsToNum with
  | h :: m :: _ => (h, m)
  | [h] => (h, 0)
  | [] => (0, 0)

/-- The `nextTime` computation shared verbatim by `getAffectedSlotKeys`
and `getStudentSlotKeys`: minutes + 30 with carry into the hour, both
parts zero-padded. -/
def nextHalfHour (time : String) : String :=
  let hm := parseTimeParts time
  let nextMinutes := hm.2 + 30
  let nextHours := hm.1 + nextMinutes / 60
  pad2 nextHours ++ ":" ++ pad2 (nextMinutes % 60)

/-- The time regex `^([01]\d|2[0-3]):([0-5]\d)$` of
`validateReservationData`. -/
def timeRegexTest (s : String) : Bool :=
  match s.data with
  | [h1, h2, c, m1, m2] =>
    c == ':' &&
    (((h1 == '0' || h1 == '1') && h2.isDigit) ||
     (h1 == '2' && (h2 == '0' || h2 == '1' || h2 == '2' || h2 == '3'))) &&
    ((m1 == '0' || m1 == '1' || m1 == '2' || m1 == '3' || m1 == '4' || m1 == '5') && m2.isDigit)
  | _ => false

/-- The date regex `^\d{4}-\d{2}-\d{2}$` of `validateReservationData`. -/
def dateRegexTest (s : String) : Bool :=
  match s.data with
  | [y1, y2, y3, y4, d1, m1, m2, d2, a1, a2] =>
    y1.isDigit && y2.isDigit && y3.isDigit && y4.isDigit && d1 == '-' &&
    m1.isDigit && m2.isDigit && d2 == '-' && a1.isDigit && a2.isDigit
  | _ => false

/-- Gregorian leap year, as used by the JS `Date` implementation. -/
def isLeapYear (y : Nat) : Bool := y % 4 == 0 && (y % 100 != 0 || y % 400 == 0)

/-- Days in a month, as used by the JS `Date` implementation. -/
def daysInMonth (y m : Nat) : Nat :=
  if m == 2 then (if isLeapYear y then 29 else 28)
  else if m == 4 || m == 6 || m == 9 || m == 11 then 30 else 31

/-- The three numeric components of a `YYYY-MM-DD` string. -/
def parseDateParts (s : String) : Nat × Nat × Nat :=
  match (jsSplit '-' s).map jsToNum with
  | y :: m :: d :: _ => (y, m, d)
  | [y, m] => (y, m, 0)
  | [y] => (y, 0, 0)
  | [] => (0, 0, 0)

/-- `!isNaN(new Date(date).getTime())` for a string already matching the
date regex: month in 1..12 and day in 1..daysInMonth. -/
def isRealDate (s : String) : Bool :=
  let ymd := parseDateParts s
  1 ≤ ymd.2.1 && ymd.2.1 ≤ 12 && 1 ≤ ymd.2.2 && ymd.2.2 ≤ daysInMonth ymd.1 ymd.2.1

/-- A working-hours period `{meal, from, to}` of a canteen. -/
structure Period where
  meal : String
  fromTime : String
  toTime : String
deriving DecidableEq, Repr

/-- A canteen as consumed by the reservation engine: `capacity` and
`workingHours` (the other stored fields are never read by it). -/
structure Canteen where
  capacity : Nat
  workingHours : List Period
deriving DecidableEq, Repr

/-- The structured form of an occupancy-counter key
`slot:{canteenId}:{date}:{time}`. -/
structure SlotKey where
  canteenId : Nat
  date : String
  time : String
deriving DecidableEq, Repr

/-- The structured form of a global student-membership key
`studentSlot:{date}:{time}` (deliberately canteen-agnostic). -/
structure StudentSlotKey where
  date : String
  time : String
deriving DecidableEq, Repr

/-- A stored reservation record (the `createdAt` timestamp is stored but
never read by any logic modelled here and is omitted). -/
structure Reservation where
  id : Nat
  studentId : Nat
  canteenId : Nat
  date : String
  time : String
  duration : Nat
  status : String
deriving DecidableEq, Repr

/-- The slot-accounting state held in Redis: occupancy counters
(`GET`/`INCR`/`DECR`, absent key read as 0), global student-tick
membership sets (`SADD`/`SREM`/`SISMEMBER`), reservation records and the
`reservation:id:counter` allocator. -/
structure Store where
  counters : SlotKey → Int
  members : StudentSlotKey → String → Bool
  reservations : Nat → Option Reservation
  nextId : Nat

/-- The empty Redis database. -/
def emptyStore : Store where
  counters := fun _ => 0
  members := fun _ _ => false
  reservations := fun _ => none
  nextId := 0

/-- The external collaborators of the engine: canteen lookup
(`getCanteen`) and student-existence check (`EXISTS student:{id}`).
Both are fixed for the duration of a run. -/
structure Env where
  getCanteen : Nat → Option Canteen
  studentExists : Nat → Bool

/-- The validated input of `createReservation` at its parsed types. -/
structure ReservationData where
  studentId : Nat
  canteenId : Nat
  date : String
  time : String
  duration : Nat
deriving DecidableEq, Repr

/-- `getAffectedSlotKeys(canteenId, date, time, duration)`: one key for
a 30-minute booking, the start tick plus the following half hour for a
60-minute booking. -/
def getAffectedSlotKeys (canteenId : Nat) (date time : String) (duration : Nat) : List SlotKey :=
  let keys := [SlotKey.mk canteenId date time]
  if duration == 60 then keys ++ [SlotKey.mk canteenId date (nextHalfHour time)] else keys

/-- `getStudentSlotKeys(date, time, duration)`: the same ticks without
the canteen dimension. -/
def getStudentSlotKeys (date time : String) (duration : Nat) : List StudentSlotKey :=
  let keys := [StudentSlotKey.mk date time]
  if duration == 60 then keys ++ [StudentSlotKey.mk date (nextHalfHour time)] else keys

/-- `isTimeInMealPeriod(workingHours, time)`:
`time >= period.from && time < period.to` for some period
(JS string comparison). -/
def isTimeInMealPeriod (workingHours : List Period) (time : String) : Bool :=
  workingHours.any (fun p => !jsLt time p.fromTime && jsLt time p.toTime)

/-- `isValidReservationTime(workingHours, time, duration)`: the start
must lie in a meal period; a 60-minute booking must additionally start
at minute 0 and have `HH:30` also lie in a meal period (the source does
not require the same period for both halves). -/
def isValidReservationTime (workingHours : List Period) (time : String) (duration : Nat) : Bool :=
  if !isTimeInMealPeriod workingHours time then false
  else if duration == 60 then
    let minutes := (parseTimeParts time).2
    if minutes != 0 then false
    else
      let hours := (parseTimeParts time).1
      let nextTime := pad2 hours ++ ":30"
      isTimeInMealPeriod workingHours nextTime
  else true

/-- `validateReservationData`, at parsed types: positivity of the ids,
the date and time formats, a real calendar date, duration 30 or 60 and
the minute-0 requirement for 60-minute bookings, each with the error
message the source throws. -/
def validateReservationData (rd : ReservationData) : Option String :=
  if rd.studentId < 1 then some "studentId must be a positive integer"
  else if rd.canteenId < 1 then some "canteenId must be a positive integer"
  else if !dateRegexTest rd.date then some "Invalid date format. Must be YYYY-MM-DD"
  else if !isRealDate rd.date then some "Invalid date"
  else if !timeRegexTest rd.time then some "Invalid time format. Must be HH:mm"
  else if !(rd.duration == 30 || rd.duration == 60) then some "duration must be 30 or 60"
  else if rd.duration == 60 && (parseTimeParts rd.time).2 != 0 then
    some "60-minute reservations must start at even hours (e.g., 08:00, 09:00)"
  else none

/-- The string rendering of an occupancy key, used in the fully-booked
error message. -/
def slotKeyString (k : SlotKey) : String :=
  "slot:" ++ toString k.canteenId ++ ":" ++ k.date ++ ":" ++ k.time

/-- The first `multi` block of `createReservation` together with the two
check loops over its results: read every affected counter and every
membership flag, fail on the first counter at or above capacity, then
fail if the student is a member of any affected global tick set. -/
def checkPhase (s : Store) (slotKeys : List SlotKey) (studentSlotKeys : List StudentSlotKey)
    (capacity : Nat) (studentId : Nat) : Option String :=
  match slotKeys.find? (fun k => (capacity : Int) ≤ s.counters k) with
  | some k => some ("Slot " ++ slotKeyString k ++ " is fully booked")
  | none =>
    if studentSlotKeys.any (fun k => s.members k (toString studentId)) then
      some "Student already has a reservation for this time slot"
    else none

/-- `INCR key` on an occupancy counter. -/
def incrCounter (st : Store) (k : SlotKey) : Store :=
  { st with counters := fun k2 => if k2 = k then st.counters k2 + 1 else st.counters k2 }

/-- `DECR key` on an occupancy counter (no floor at zero). -/
def decrCounter (st : Store) (k : SlotKey) : Store :=
  { st with counters := fun k2 => if k2 = k then st.counters k2 - 1 else st.counters k2 }

/-- `SADD key member` on a global student set. -/
def addMember (st : Store) (k : StudentSlotKey) (member : String) : Store :=
  { st with members := fun k2 m2 => if k2 = k ∧ m2 = member then true else st.members k2 m2 }

/-- `SREM key member` on a global student set. -/
def remMember (st : Store) (k : StudentSlotKey) (member : String) : Store :=
  { st with members := fun k2 m2 => if k2 = k ∧ m2 = member then false else st.members k2 m2 }

/-- `HSET reservation:{id} {...}`. -/
def putReservation (st : Store) (id : Nat) (r : Reservation) : Store :=
  { st with reservations := fun i => if i = id then some r else st.reservations i }

/-- The second `multi` block of `createReservation`: persist the record,
increment every affected counter, add the student to every affected
global tick set. -/
def applyCreate (s : Store) (id : Nat) (res : Reservation)
    (slotKeys : List SlotKey) (studentSlotKeys : List StudentSlotKey) : Store :=
  let s1 := putReservation s id res
  let s2 := slotKeys.foldl incrCounter s1
  studentSlotKeys.foldl (fun st k => addMember st k (toString res.studentId)) s2

/-- `createReservation(reservationData)`.  `now` is the current instant
(`new Date()`) rendered as `YYYY-MM-DDTHH:MM:SS`; the request's instant
`date + 'T' + time + ':00'` is compared to it the way JS orders the two
`Date` values.  The `checkPhase` and `applyCreate` steps correspond to
the two separate `multi().exec()` transactions of the source with the
id allocation (`INCR reservation:id:counter`) in between. -/
def createReservation (env : Env) (now : String) (s : Store) (rd : ReservationData) :
    Except String (Store × Reservation) :=
  match validateReservationData rd with
  | some e => .error e
  | none =>
    match env.getCanteen rd.canteenId with
    | none => .error "Canteen not found"
    | some canteen =>
      if !env.studentExists rd.studentId then .error "Student not found"
      else if jsLt (rd.date ++ "T" ++ rd.time ++ ":00") now then
        .error "Reservation date and time cannot be in the past"
      else if !isValidReservationTime canteen.workingHours rd.time rd.duration then
        .error "Invalid reservation time or duration"
      else
        let slotKeys := getAffectedSlotKeys rd.canteenId rd.date rd.time rd.duration
        let studentSlotKeys := getStudentSlotKeys rd.date rd.time rd.duration
        match checkPhase s slotKeys studentSlotKeys canteen.capacity rd.studentId with
        | some e => .error e
        | none =>
          let id := s.nextId + 1
          let res : Reservation :=
            ⟨id, rd.studentId, rd.canteenId, rd.date, rd.time, rd.duration, "Active"⟩
          .ok (applyCreate { s with nextId := id } id res slotKeys studentSlotKeys, res)

/-- The single `multi` block of `deleteReservation`: flip the status to
Cancelled, decrement every affected counter, remove the requester from
every affected global tick set. -/
def applyDelete (s : Store) (rid : Nat) (updated : Reservation)
    (slotKeys : List SlotKey) (studentSlotKeys : List StudentSlotKey) (member : String) : Store :=
  let s1 := putReservation s rid updated
  let s2 := slotKeys.foldl decrCounter s1
  studentSlotKeys.foldl (fun st k => remMember st k member) s2

/-- `deleteReservation(reservationId, studentId)`.  Returns `none`
(leaving the store untouched) when the record does not exist, the
requester fails the strict `!==` comparison against the stored
`studentId` string, or the record is already Cancelled; otherwise
cancels and returns the post-cancellation record. -/
def deleteReservation (s : Store) (reservationId : Nat) (requester : JSVal) :
    Option (Store × Reservation) :=
  match s.reservations reservationId with
  | none => none
  | some r =>
    if !jsStrictEq (.str (toString r.studentId)) requester then none
    else if r.status == "Cancelled" then none
    else
      let slotKeys := getAffectedSlotKeys r.canteenId r.date r.time r.duration
      let studentSlotKeys := getStudentSlotKeys r.date r.time r.duration
      let updated : Reservation := { r with status := "Cancelled" }
      some (applyDelete s reservationId updated slotKeys studentSlotKeys (jsToString requester),
            updated)

/-- One externally-invokable mutation of the store. -/
inductive Op where
  | create (now : String) (rd : ReservationData)
  | delete (reservationId : Nat) (requester : JSVal)

/-- Sequential execution of one operation: a failed create or a
not-applicable delete leaves the store unchanged. -/
def step (env : Env) (s : Store) : Op → Store
  | .create now rd =>
    match createReservation env now s rd with
    | .ok p => p.1
    | .error _ => s
  | .delete rid req =>
    match deleteReservation s rid req with
    | some p => p.1
    | none => s

/-- Sequential execution of a list of operations. -/
def run (env : Env) (s : Store) (ops : List Op) : Store :=
  ops.foldl (step env) s

theorem jsLt_sample : jsLt "08:00" "08:30" = true := by decide
theorem isTimeInMealPeriod_sample :
    isTimeInMealPeriod [⟨"breakfast", "08:00", "10:00"⟩] "08:30" = true := by decide
theorem isValidReservationTime_sample :
    isValidReservationTime [⟨"breakfast", "08:00", "10:00"⟩] "09:30" 60 = false := by decide
theorem getAffectedSlotKeys_sample : getAffectedSlotKeys 1 "2025-12-15" "08:00" 60 =
    [⟨1, "2025-12-15", "08:00"⟩, ⟨1, "2025-12-15", "08:30"⟩] := by decide
theorem validateReservationData_sample :
    validateReservationData ⟨42, 1, "2025-12-15", "08:30", 30⟩ = none := by decide
theorem validateReservationData_badDate_sample :
    validateReservationData ⟨42, 1, "2025-02-30", "08:30", 30⟩ = some "Invalid date" := by decide

/-- `getMealForTime(workingHours, time)`: the meal of the first period
with `time >= from && time < to`, or none. -/
def getMealForTime (workingHours : List Period) (time : String) : Option String :=
  (workingHours.find? (fun p => !jsLt time p.fromTime && jsLt time p.toTime)).map (fun p => p.meal)

/-- A derived calendar slot `{date, time, meal}`. -/
structure CalSlot where
  date : String
  time : String
  meal : String
deriving DecidableEq, Repr

/-- The while-loop of `generateTimeSlotsForDate`.  The fuel only bounds
the iteration count; the loop itself stops when
`current + duration > endTotalMinutes`, and every top-level call passes
enough fuel that the fuel is never the reason to stop. -/
def genSlotsLoop (fuel : Nat) (date : String) (endTotalMinutes durationMin : Nat)
    (workingHours : List Period) (currentHour currentMinute : Nat) : List CalSlot :=
  match fuel with
  | 0 => []
  | fuel + 1 =>
    let currentTotalMinutes := currentHour * 60 + currentMinute
    if currentTotalMinutes + durationMin > endTotalMinutes then []
    else
      let timeStr := pad2 currentHour ++ ":" ++ pad2 currentMinute
      let emitted : List CalSlot :=
        match getMealForTime workingHours timeStr with
        | some meal =>
          if durationMin == 60 then
            let nextTime := pad2 currentHour ++ ":30"
            if getMealForTime workingHours nextTime == some meal then [⟨date, timeStr, meal⟩]
            else []
          else [⟨date, timeStr, meal⟩]
        | none => []
      if durationMin == 60 then
        emitted ++ genSlotsLoop fuel date endTotalMinutes durationMin workingHours (currentHour + 1) 0
      else if currentMinute + 30 ≥ 60 then
        emitted ++ genSlotsLoop fuel date endTotalMinutes durationMin workingHours (currentHour + 1) 0
      else
        emitted ++ genSlotsLoop fuel date endTotalMinutes durationMin workingHours
          currentHour (currentMinute + 30)

/-- `generateTimeSlotsForDate(date, startTime, endTime, duration,
workingHours)`: walk candidate start times from the day's effective
start time (60-minute slots advance to the next full hour, 30-minute
slots advance by 30 minutes), emitting each candidate whose meal lookup
succeeds (for 60 minutes, whose `HH:30` companion lookup resolves to the
same meal). -/
def generateTimeSlotsForDate (date startTime endTime : String) (duration : Nat)
    (workingHours : List Period) : List CalSlot :=
  let hm := parseTimeParts startTime
  let em := parseTimeParts endTime
  let endTotalMinutes := em.1 * 60 + em.2
  genSlotsLoop (endTotalMinutes + duration + 2) date endTotalMinutes duration workingHours hm.1 hm.2

/-- A rank on calendar dates; on real dates it orders exactly as the JS
`Date` timestamps that drive the day-walk loop. -/
def dateRank (ymd : Nat × Nat × Nat) : Nat := ymd.1 * 372 + ymd.2.1 * 31 + ymd.2.2

/-- `d.setDate(d.getDate() + 1)`: the next calendar day. -/
def nextDay (ymd : Nat × Nat × Nat) : Nat × Nat × Nat :=
  if ymd.2.2 + 1 ≤ daysInMonth ymd.1 ymd.2.1 then (ymd.1, ymd.2.1, ymd.2.2 + 1)
  else if ymd.2.1 + 1 ≤ 12 then (ymd.1, ymd.2.1 + 1, 1)
  else (ymd.1 + 1, 1, 1)

/-- Four-digit zero padding (the year part of `toISOString()`). -/
def pad4 (n : Nat) : String :=
  if n < 10 then "000" ++ toString n
  else if n < 100 then "00" ++ toString n
  else if n < 1000 then "0" ++ toString n
  else toString n

/-- `d.toISOString().split('T')[0]` for a date held at noon-free UTC:
`YYYY-MM-DD`. -/
def formatDate (ymd : Nat × Nat × Nat) : String :=
  pad4 ymd.1 ++ "-" ++ pad2 ymd.2.1 ++ "-" ++ pad2 ymd.2.2

/-- The `for (d = start; d <= end; d.setDate(...))` day walk.  Fuel as
in `genSlotsLoop`; on real dates the walk stops by the rank comparison,
never by fuel. -/
def genDates (fuel : Nat) (cur endYmd : Nat × Nat × Nat) : List String :=
  match fuel with
  | 0 => []
  | fuel + 1 =>
    if dateRank cur ≤ dateRank endYmd then formatDate cur :: genDates fuel (nextDay cur) endYmd
    else []

/-- `generateTimeSlots(startDate, startTime, endDate, endTime, duration,
workingHours)`: per-day windows default to `00:00`–`23:59`, clipped to
the requested times on the first and last day. -/
def generateTimeSlots (startDate startTime endDate endTime : String) (duration : Nat)
    (workingHours : List Period) : List CalSlot :=
  let startYmd := parseDateParts startDate
  let endYmd := parseDateParts endDate
  (genDates (dateRank endYmd + 2 - dateRank startYmd) startYmd endYmd).foldl
    (fun acc dateStr =>
      let dayStartTime := if dateStr == startDate then startTime else "00:00"
      let dayEndTime := if dateStr == endDate then endTime else "23:59"
      acc ++ generateTimeSlotsForDate dateStr dayStartTime dayEndTime duration workingHours) []

/-- One row of a `getCanteenStatus` response. -/
structure StatusSlot where
  date : String
  meal : String
  startTime : String
  remainingCapacity : Int
deriving DecidableEq, Repr

/-- The body of the per-slot loop of `getCanteenStatus`: one response
row for one derived slot; a 60-minute query reads the slot's counter and
the counter at minute 30 of the slot's start hour and uses the larger of
the two; `remainingCapacity = max(0, capacity - used)`. -/
def statusRow (s : Store) (canteenId capacity duration : Nat) (slot : CalSlot) : StatusSlot :=
  if duration == 60 then
    let hours := (parseTimeParts slot.time).1
    let nextTime := pad2 hours ++ ":30"
    let used1 := s.counters ⟨canteenId, slot.date, slot.time⟩
    let used2 := s.counters ⟨canteenId, slot.date, nextTime⟩
    ⟨slot.date, slot.meal, slot.time, max 0 ((capacity : Int) - max used1 used2)⟩
  else
    let used := s.counters ⟨canteenId, slot.date, slot.time⟩
    ⟨slot.date, slot.meal, slot.time, max 0 ((capacity : Int) - used)⟩

/-- `getCanteenStatus(canteenId, startDate, startTime, endDate, endTime,
duration)`: `none` when the canteen does not exist; otherwise one
`statusRow` per derived slot. -/
def getCanteenStatus (env : Env) (s : Store) (canteenId : Nat)
    (startDate startTime endDate endTime : String) (duration : Nat) : Option (List StatusSlot) :=
  match env.getCanteen canteenId with
  | none => none
  | some canteen =>
    let slots := generateTimeSlots startDate startTime endDate endTime duration canteen.workingHours
    some (slots.map (statusRow s canteenId canteen.capacity duration))

/-- Modelled from the spec (claim C8's reading of §4.4): the effective
occupancy of a slot is the counter of its tick for a 30-minute query
and the maximum over the two constituent 30-minute ticks — the start
tick and the immediately following half hour — for a 60-minute query. -/
def specEffectiveOccupancy (s : Store) (canteenId : Nat) (date time : String)
    (duration : Nat) : Int :=
  if duration == 60 then
    max (s.counters ⟨canteenId, date, time⟩) (s.counters ⟨canteenId, date, nextHalfHour time⟩)
  else s.counters ⟨canteenId, date, time⟩

theorem generateTimeSlotsForDate_sample : generateTimeSlotsForDate "2025-12-15" "08:30" "10:00" 60
    [⟨"breakfast", "08:00", "10:00"⟩] =
    [⟨"2025-12-15", "08:30", "breakfast"⟩, ⟨"2025-12-15", "09:00", "breakfast"⟩] := by decide
theorem generateTimeSlots_sample : generateTimeSlots "2025-12-15" "08:00" "2025-12-15" "10:00" 30
    [⟨"breakfast", "08:00", "10:00"⟩] =
    [⟨"2025-12-15", "08:00", "breakfast"⟩, ⟨"2025-12-15", "08:30", "breakfast"⟩,
     ⟨"2025-12-15", "09:00", "breakfast"⟩, ⟨"2025-12-15", "09:30", "breakfast"⟩] := by decide
theorem generateTimeSlots_crossDay_sample :
    generateTimeSlots "2025-12-31" "23:00" "2026-01-01" "00:30" 30
    [⟨"dinner", "22:00", "23:59"⟩] = [⟨"2025-12-31", "23:00", "dinner"⟩] := by decide

theorem digit_enum (c : Char) (h : c.isDigit = true) :
    c = '0' ∨ c = '1' ∨ c = '2' ∨ c = '3' ∨ c = '4' ∨ c = '5' ∨ c = '6' ∨ c = '7' ∨ c = '8' ∨ c = '9' := by
  have hc : Char.ofNat c.val.toNat = c := Char.ofNat_toNat c
  simp only [Char.isDigit, Bool.and_eq_true, decide_eq_true_eq] at h
  obtain ⟨h1, h2⟩ := h
  have h1' : 48 ≤ c.val.toNat := h1
  have h2' : c.val.toNat ≤ 57 := h2
  interval_cases hd : c.val.toNat <;> rw [← hc] <;> decide

theorem digit_ne_colon (c : Char) (h : c.isDigit = true) : (c == ':') = false := by
  rcases digit_enum c h with rfl | rfl | rfl | rfl | rfl | rfl | rfl | rfl | rfl | rfl <;> decide

theorem splitOn_append_sep (A B : List Char) (hA : ∀ c ∈ A, (c == ':') = false)
    (hB : ∀ c ∈ B, (c == ':') = false) :
    (A ++ ':' :: B).splitOn ':' = [A, B] := by
  unfold List.splitOn
  rw [List.splitOnP_first (· == ':') A (fun c hc => by simp [hA c hc]) ':' (by simp) B]
  rw [List.splitOnP_eq_single (· == ':') B (fun c hc => by simp [hB c hc])]

theorem mk_data (s : String) : String.mk s.data = s := by
  cases s
  rfl

theorem pad2_facts : ∀ a < 100, jsToNum (pad2 a) = a ∧ (∀ c ∈ (pad2 a).data, (c == ':') = false) := by
  decide

theorem parse_pad_pair (a b : Nat) (ha : a < 100) (hb : b < 100) :
    parseTimeParts (pad2 a ++ ":" ++ pad2 b) = (a, b) := by
  have hda : (pad2 a ++ ":" ++ pad2 b).data = (pad2 a).data ++ ':' :: (pad2 b).data := by
    simp [String.data_append]
  unfold parseTimeParts jsSplit
  rw [hda, splitOn_append_sep _ _ ((pad2_facts a ha).2) ((pad2_facts b hb).2)]
  simp [mk_data, (pad2_facts a ha).1, (pad2_facts b hb).1]

theorem hour_pair (h1 h2 : Char)
    (hc : (((h1 == '0' || h1 == '1') && h2.isDigit) ||
           (h1 == '2' && (h2 == '0' || h2 == '1' || h2 == '2' || h2 == '3'))) = true) :
    jsToNum (String.mk [h1, h2]) ≤ 23 ∧ pad2 (jsToNum (String.mk [h1, h2])) = String.mk [h1, h2] := by
  simp only [Bool.or_eq_true, Bool.and_eq_true, beq_iff_eq] at hc
  rcases hc with ⟨h1c, h2d⟩ | ⟨h1c, h2c⟩
  · rcases digit_enum h2 h2d with h | h | h | h | h | h | h | h | h | h <;>
      rcases h1c with rfl | rfl <;> subst h <;> decide
  · subst h1c
    rcases h2c with ((rfl | rfl) | rfl) | rfl <;> decide

theorem minute_pair (m1 m2 : Char)
    (hm1 : (m1 == '0' || m1 == '1' || m1 == '2' || m1 == '3' || m1 == '4' || m1 == '5') = true)
    (m2d : m2.isDigit = true) :
    jsToNum (String.mk [m1, m2]) ≤ 59 ∧ pad2 (jsToNum (String.mk [m1, m2])) = String.mk [m1, m2] := by
  simp only [Bool.or_eq_true, beq_iff_eq] at hm1
  rcases digit_enum m2 m2d with h | h | h | h | h | h | h | h | h | h <;>
    rcases hm1 with ((((rfl | rfl) | rfl) | rfl) | rfl) | rfl <;> subst h <;> decide

/-- Every string accepted by the `HH:MM` regex parses to an hour below
24 and a minute below 60 and is recovered exactly by re-padding the two
parts. -/
theorem time_canonical (t : String) (h : timeRegexTest t = true) :
    (parseTimeParts t).1 ≤ 23 ∧ (parseTimeParts t).2 ≤ 59 ∧
      t = pad2 (parseTimeParts t).1 ++ ":" ++ pad2 (parseTimeParts t).2 := by
  obtain ⟨l⟩ := t
  match l with
  | [h1, h2, c, m1, m2] =>
    simp only [timeRegexTest, Bool.and_eq_true] at h
    obtain ⟨⟨hcol, hhour⟩, hmin1, hmin2⟩ := h
    have hcol' : c = ':' := by simpa using hcol
    subst hcol'
    have hne1 : (h1 == ':') = false := by
      rcases (by simpa [Bool.or_eq_true, Bool.and_eq_true, beq_iff_eq] using hhour) with ⟨hc, _⟩ | ⟨hc, _⟩
      · rcases hc with rfl | rfl <;> decide
      · subst hc
        decide
    have hne2 : (h2 == ':') = false := by
      rcases (by simpa [Bool.or_eq_true, Bool.and_eq_true, beq_iff_eq] using hhour) with ⟨_, hd⟩ | ⟨_, hd⟩
      · exact digit_ne_colon _ hd
      · rcases hd with ((rfl | rfl) | rfl) | rfl <;> decide
    have hne3 : (m1 == ':') = false := by
      have hc := hmin1
      simp only [Bool.or_eq_true, beq_iff_eq] at hc
      rcases hc with ((((rfl | rfl) | rfl) | rfl) | rfl) | rfl <;> decide
    have hne4 : (m2 == ':') = false := digit_ne_colon _ hmin2
    have hA1 : ∀ d ∈ [h1, h2], (d == ':') = false := by
      intro d hd
      simp only [List.mem_cons, List.not_mem_nil, or_false] at hd
      rcases hd with rfl | rfl
      · exact hne1
      · exact hne2
    have hB1 : ∀ d ∈ [m1, m2], (d == ':') = false := by
      intro d hd
      simp only [List.mem_cons, List.not_mem_nil, or_false] at hd
      rcases hd with rfl | rfl
      · exact hne3
      · exact hne4
    have h1s : jsSplit ':' (String.mk [h1, h2, ':', m1, m2]) =
        [String.mk [h1, h2], String.mk [m1, m2]] := by
      unfold jsSplit
      have hdata : (String.mk [h1, h2, ':', m1, m2]).data = [h1, h2] ++ ':' :: [m1, m2] := rfl
      rw [hdata, splitOn_append_sep _ _ hA1 hB1]
      rfl
    have hsplit : parseTimeParts (String.mk [h1, h2, ':', m1, m2]) =
        (jsToNum (String.mk [h1, h2]), jsToNum (String.mk [m1, m2])) := by
      unfold parseTimeParts
      rw [h1s]
      rfl
    have hh := hour_pair h1 h2 hhour
    have hm := minute_pair m1 m2 hmin1 hmin2
    rw [hsplit]
    refine ⟨hh.1, hm.1, ?_⟩
    rw [hh.2, hm.2]
    apply String.ext
    simp [String.data_append]
  | [] => simp [timeRegexTest] at h
  | [_] => simp [timeRegexTest] at h
  | [_, _] => simp [timeRegexTest] at h
  | [_, _, _] => simp [timeRegexTest] at h
  | [_, _, _, _] => simp [timeRegexTest] at h
  | _ :: _ :: _ :: _ :: _ :: _ :: _ => simp [timeRegexTest] at h

/-- On a regex-valid time the next half hour is a different string, so
the two keys of a 60-minute footprint are distinct. -/
theorem nextHalfHour_ne (t : String) (h : timeRegexTest t = true) : nextHalfHour t ≠ t := by
  obtain ⟨hh23, hm59, hcanon⟩ := time_canonical t h
  intro heq
  have hnext : nextHalfHour t =
      pad2 ((parseTimeParts t).1 + ((parseTimeParts t).2 + 30) / 60) ++ ":" ++
        pad2 (((parseTimeParts t).2 + 30) % 60) := rfl
  have hp1 : parseTimeParts (nextHalfHour t) =
      ((parseTimeParts t).1 + ((parseTimeParts t).2 + 30) / 60, ((parseTimeParts t).2 + 30) % 60) := by
    rw [hnext]
    exact parse_pad_pair _ _ (by omega) (by omega)
  rw [heq] at hp1
  have h2 : (parseTimeParts t).2 = ((parseTimeParts t).2 + 30) % 60 := congrArg Prod.snd hp1
  omega

/-- On a regex-valid time with minute 0 the next half hour is exactly
`HH:30` with the same padded hour. -/
theorem nextHalfHour_of_min0 (t : String) (h0 : (parseTimeParts t).2 = 0) :
    nextHalfHour t = pad2 (parseTimeParts t).1 ++ ":30" := by
  show pad2 ((parseTimeParts t).1 + ((parseTimeParts t).2 + 30) / 60) ++ ":" ++
      pad2 (((parseTimeParts t).2 + 30) % 60) = pad2 (parseTimeParts t).1 ++ ":30"
  rw [h0]
  norm_num
  have h30 : pad2 30 = "30" := by decide
  rw [h30]
  apply String.ext
  simp [String.data_append]

/-- The slot keys affected by a stored reservation. -/
def affectedKeysOf (r : Reservation) : List SlotKey :=
  getAffectedSlotKeys r.canteenId r.date r.time r.duration

/-- The student-membership keys affected by a stored reservation. -/
def studentKeysOf (r : Reservation) : List StudentSlotKey :=
  getStudentSlotKeys r.date r.time r.duration

theorem getAffectedSlotKeys_canteenId (canteenId : Nat) (date time : String) (duration : Nat) :
    ∀ k ∈ getAffectedSlotKeys canteenId date time duration, k.canteenId = canteenId := by
  intro k hk
  unfold getAffectedSlotKeys at hk
  by_cases h : duration == 60 <;> simp [h] at hk
  · rcases hk with rfl | rfl <;> rfl
  · rw [hk]

theorem getAffectedSlotKeys_nodup (canteenId : Nat) (date time : String) (duration : Nat)
    (ht : timeRegexTest time = true) :
    (getAffectedSlotKeys canteenId date time duration).Nodup := by
  unfold getAffectedSlotKeys
  by_cases h : duration == 60 <;> simp [h]
  intro he
  exact nextHalfHour_ne time ht he.symm

theorem getStudentSlotKeys_nodup (date time : String) (duration : Nat)
    (ht : timeRegexTest time = true) :
    (getStudentSlotKeys date time duration).Nodup := by
  unfold getStudentSlotKeys
  by_cases h : duration == 60 <;> simp [h]
  intro he
  exact nextHalfHour_ne time ht he.symm

theorem foldl_incr_counters (ks : List SlotKey) (s : Store) (k : SlotKey) :
    (ks.foldl incrCounter s).counters k = s.counters k + ks.count k := by
  induction ks generalizing s with
  | nil => simp
  | cons a as ih =>
    rw [List.foldl_cons, ih]
    by_cases hak : k = a
    · subst hak
      simp [incrCounter, List.count_cons]
      ring
    · simp [incrCounter, hak, List.count_cons, Ne.symm hak]

theorem foldl_incr_others (ks : List SlotKey) (s : Store) :
    (ks.foldl incrCounter s).members = s.members ∧
    (ks.foldl incrCounter s).reservations = s.reservations ∧
    (ks.foldl incrCounter s).nextId = s.nextId := by
  induction ks generalizing s with
  | nil => exact ⟨rfl, rfl, rfl⟩
  | cons a as ih => simpa [incrCounter] using ih (incrCounter s a)

theorem foldl_decr_counters (ks : List SlotKey) (s : Store) (k : SlotKey) :
    (ks.foldl decrCounter s).counters k = s.counters k - ks.count k := by
  induction ks generalizing s with
  | nil => simp
  | cons a as ih =>
    rw [List.foldl_cons, ih]
    by_cases hak : k = a
    · subst hak
      simp [decrCounter, List.count_cons]
      ring
    · simp [decrCounter, hak, List.count_cons, Ne.symm hak]

theorem foldl_decr_others (ks : List SlotKey) (s : Store) :
    (ks.foldl decrCounter s).members = s.members ∧
    (ks.foldl decrCounter s).reservations = s.reservations ∧
    (ks.foldl decrCounter s).nextId = s.nextId := by
  induction ks generalizing s with
  | nil => exact ⟨rfl, rfl, rfl⟩
  | cons a as ih => simpa [decrCounter] using ih (decrCounter s a)

theorem foldl_add_members (sks : List StudentSlotKey) (member : String) (s : Store)
    (k : StudentSlotKey) (m : String) :
    ((sks.foldl (fun st k2 => addMember st k2 member) s).members k m) =
      (s.members k m || (decide (k ∈ sks) && decide (m = member))) := by
  induction sks generalizing s with
  | nil => simp
  | cons a as ih =>
    rw [List.foldl_cons, ih]
    by_cases hka : k = a
    · subst hka
      by_cases hm : m = member
      · subst hm
        simp [addMember]
      · simp [addMember, hm]
    · simp [addMember, hka, Ne.symm hka]

theorem foldl_add_others (sks : List StudentSlotKey) (member : String) (s : Store) :
    ((sks.foldl (fun st k2 => addMember st k2 member) s).counters = s.counters) ∧
    ((sks.foldl (fun st k2 => addMember st k2 member) s).reservations = s.reservations) ∧
    ((sks.foldl (fun st k2 => addMember st k2 member) s).nextId = s.nextId) := by
  induction sks generalizing s with
  | nil => exact ⟨rfl, rfl, rfl⟩
  | cons a as ih => simpa [addMember] using ih (addMember s a member)

theorem foldl_rem_members (sks : List StudentSlotKey) (member : String) (s : Store)
    (k : StudentSlotKey) (m : String) :
    ((sks.foldl (fun st k2 => remMember st k2 member) s).members k m) =
      (s.members k m && !(decide (k ∈ sks) && decide (m = member))) := by
  induction sks generalizing s with
  | nil => simp
  | cons a as ih =>
    rw [List.foldl_cons, ih]
    by_cases hka : k = a
    · subst hka
      by_cases hm : m = member
      · subst hm
        simp [remMember]
      · simp [remMember, hm]
    · simp [remMember, hka, Ne.symm hka]

theorem foldl_rem_others (sks : List StudentSlotKey) (member : String) (s : Store) :
    ((sks.foldl (fun st k2 => remMember st k2 member) s).counters = s.counters) ∧
    ((sks.foldl (fun st k2 => remMember st k2 member) s).reservations = s.reservations) ∧
    ((sks.foldl (fun st k2 => remMember st k2 member) s).nextId = s.nextId) := by
  induction sks generalizing s with
  | nil => exact ⟨rfl, rfl, rfl⟩
  | cons a as ih => simpa [remMember] using ih (remMember s a member)

theorem validate_none_spec (rd : ReservationData) (h : validateReservationData rd = none) :
    1 ≤ rd.studentId ∧ 1 ≤ rd.canteenId ∧ dateRegexTest rd.date = true ∧
      isRealDate rd.date = true ∧ timeRegexTest rd.time = true ∧
      (rd.duration = 30 ∨ rd.duration = 60) ∧
      (rd.duration = 60 → (parseTimeParts rd.time).2 = 0) := by
  unfold validateReservationData at h
  split_ifs at h with h1 h2 h3 h4 h5 h6 h7
  refine ⟨by omega, by omega, by simpa using h3, by simpa using h4, by simpa using h5, ?_, ?_⟩
  · by_cases h30 : rd.duration = 30
    · exact Or.inl h30
    · exact Or.inr ((show ¬rd.duration = 30 → rd.duration = 60 by simpa using h6) h30)
  · intro hd
    simp only [Bool.and_eq_true, beq_iff_eq, bne_iff_ne] at h7
    by_contra hne
    exact h7 ⟨hd, hne⟩

theorem checkPhase_none_spec (s : Store) (ks : List SlotKey) (sks : List StudentSlotKey)
    (cap sid : Nat) (h : checkPhase s ks sks cap sid = none) :
    (∀ k ∈ ks, s.counters k < (cap : Int)) ∧
      (∀ sk ∈ sks, s.members sk (toString sid) = false) := by
  unfold checkPhase at h
  cases hf : ks.find? (fun k => (cap : Int) ≤ s.counters k) with
  | some k => rw [hf] at h; exact absurd h (by simp)
  | none =>
    rw [hf] at h
    split_ifs at h with hmem
    constructor
    · intro k hk
      have := List.find?_eq_none.mp hf k hk
      simp only [decide_eq_true_eq] at this
      omega
    · intro sk hsk
      have := (List.any_eq_false).mp (by simpa using hmem) sk hsk
      simpa using this

theorem applyCreate_spec (s : Store) (id : Nat) (res : Reservation)
    (ks : List SlotKey) (sks : List StudentSlotKey) :
    (applyCreate s id res ks sks).nextId = s.nextId ∧
    (∀ i, (applyCreate s id res ks sks).reservations i =
      if i = id then some res else s.reservations i) ∧
    (∀ k, (applyCreate s id res ks sks).counters k = s.counters k + ks.count k) ∧
    (∀ sk m, (applyCreate s id res ks sks).members sk m =
      (s.members sk m || (decide (sk ∈ sks) && decide (m = toString res.studentId)))) := by
  unfold applyCreate
  obtain ⟨hm2, hr2, hn2⟩ := foldl_add_others sks (toString res.studentId) (ks.foldl incrCounter (putReservation s id res))
  obtain ⟨hm1, hr1, hn1⟩ := foldl_incr_others ks (putReservation s id res)
  refine ⟨?_, ?_, ?_, ?_⟩
  · rw [hn2, hn1]
    rfl
  · intro i
    rw [hr2, hr1]
    rfl
  · intro k
    have hc2 := foldl_add_others sks (toString res.studentId) (ks.foldl incrCounter (putReservation s id res))
    rw [hc2.1]
    exact foldl_incr_counters ks (putReservation s id res) k
  · intro sk m
    rw [foldl_add_members, hm1]
    rfl

theorem applyDelete_spec (s : Store) (rid : Nat) (updated : Reservation)
    (ks : List SlotKey) (sks : List StudentSlotKey) (member : String) :
    (applyDelete s rid updated ks sks member).nextId = s.nextId ∧
    (∀ i, (applyDelete s rid updated ks sks member).reservations i =
      if i = rid then some updated else s.reservations i) ∧
    (∀ k, (applyDelete s rid updated ks sks member).counters k = s.counters k - ks.count k) ∧
    (∀ sk m, (applyDelete s rid updated ks sks member).members sk m =
      (s.members sk m && !(decide (sk ∈ sks) && decide (m = member)))) := by
  unfold applyDelete
  obtain ⟨hm2, hr2, hn2⟩ := foldl_rem_others sks member (ks.foldl decrCounter (putReservation s rid updated))
  obtain ⟨hm1, hr1, hn1⟩ := foldl_decr_others ks (putReservation s rid updated)
  refine ⟨?_, ?_, ?_, ?_⟩
  · rw [hn2, hn1]
    rfl
  · intro i
    rw [hr2, hr1]
    rfl
  · intro k
    have hc2 := foldl_rem_others sks member (ks.foldl decrCounter (putReservation s rid updated))
    rw [hc2.1]
    exact foldl_decr_counters ks (putReservation s rid updated) k
  · intro sk m
    rw [foldl_rem_members, hm1]
    rfl

/-- Everything that holds when `createReservation` succeeds: which gates
passed, the returned record, and the pointwise shape of the new store. -/
theorem create_ok_spec (env : Env) (now : String) (s : Store) (rd : ReservationData)
    (s' : Store) (r : Reservation)
    (hok : createReservation env now s rd = .ok (s', r)) :
    validateReservationData rd = none ∧
    ∃ canteen, env.getCanteen rd.canteenId = some canteen ∧
      env.studentExists rd.studentId = true ∧
      jsLt (rd.date ++ "T" ++ rd.time ++ ":00") now = false ∧
      isValidReservationTime canteen.workingHours rd.time rd.duration = true ∧
      (∀ k ∈ getAffectedSlotKeys rd.canteenId rd.date rd.time rd.duration,
        s.counters k < (canteen.capacity : Int)) ∧
      (∀ sk ∈ getStudentSlotKeys rd.date rd.time rd.duration,
        s.members sk (toString rd.studentId) = false) ∧
      r = ⟨s.nextId + 1, rd.studentId, rd.canteenId, rd.date, rd.time, rd.duration, "Active"⟩ ∧
      s'.nextId = s.nextId + 1 ∧
      (∀ i, s'.reservations i = if i = s.nextId + 1 then some r else s.reservations i) ∧
      (∀ k, s'.counters k = s.counters k +
        ((getAffectedSlotKeys rd.canteenId rd.date rd.time rd.duration).count k : Int)) ∧
      (∀ sk m, s'.members sk m = (s.members sk m ||
        (decide (sk ∈ getStudentSlotKeys rd.date rd.time rd.duration) &&
         decide (m = toString rd.studentId)))) := by
  unfold createReservation at hok
  cases hval : validateReservationData rd with
  | some e =>
    rw [hval] at hok
    exact absurd hok (by simp)
  | none =>
  rw [hval] at hok
  cases hcan : env.getCanteen rd.canteenId with
  | none =>
    rw [hcan] at hok
    exact absurd hok (by simp)
  | some canteen =>
  rw [hcan] at hok
  simp only [Bool.not_eq_true] at hok
  split_ifs at hok with hst hpast hvalid
  cases hchk : checkPhase s (getAffectedSlotKeys rd.canteenId rd.date rd.time rd.duration)
      (getStudentSlotKeys rd.date rd.time rd.duration) canteen.capacity rd.studentId with
  | some e =>
    rw [hchk] at hok
    exact absurd hok (by simp)
  | none =>
  rw [hchk] at hok
  simp only [Except.ok.injEq, Prod.mk.injEq] at hok
  obtain ⟨hs', hr⟩ := hok
  obtain ⟨hcnt, hmem⟩ := checkPhase_none_spec _ _ _ _ _ hchk
  obtain ⟨han, har, hac, ham⟩ := applyCreate_spec { s with nextId := s.nextId + 1 } (s.nextId + 1)
    ⟨s.nextId + 1, rd.studentId, rd.canteenId, rd.date, rd.time, rd.duration, "Active"⟩
    (getAffectedSlotKeys rd.canteenId rd.date rd.time rd.duration)
    (getStudentSlotKeys rd.date rd.time rd.duration)
  refine ⟨rfl, canteen, rfl, ?_, ?_, ?_, hcnt, hmem, hr.symm, ?_, ?_, ?_, ?_⟩
  · simpa using hst
  · simpa using hpast
  · simpa using hvalid
  · rw [← hs']
    exact han
  · intro i
    rw [← hs', har i, ← hr]
  · intro k
    rw [← hs', hac k]
  · intro sk m
    rw [← hs', ham sk m]

theorem deleteReservation_eq_some (s : Store) (rid : Nat) (req : JSVal) (r : Reservation)
    (hr : s.reservations rid = some r) :
    deleteReservation s rid req =
      if !jsStrictEq (.str (toString r.studentId)) req then none
      else if r.status == "Cancelled" then none
      else some (applyDelete s rid { r with status := "Cancelled" }
        (getAffectedSlotKeys r.canteenId r.date r.time r.duration)
        (getStudentSlotKeys r.date r.time r.duration) (jsToString req),
        { r with status := "Cancelled" }) := by
  unfold deleteReservation
  rw [hr]

/-- `deleteReservation` returns `none` exactly in the three
not-applicable cases. -/
theorem delete_none_iff (s : Store) (rid : Nat) (req : JSVal) :
    deleteReservation s rid req = none ↔
      s.reservations rid = none ∨
      ∃ r, s.reservations rid = some r ∧
        (jsStrictEq (.str (toString r.studentId)) req = false ∨ r.status = "Cancelled") := by
  unfold deleteReservation
  cases hr : s.reservations rid with
  | none => simp
  | some r =>
    simp only [hr, Option.some.injEq]
    constructor
    · intro h
      split_ifs at h with h1 h2
      · exact Or.inr ⟨r, rfl, Or.inl (by simpa using h1)⟩
      · exact Or.inr ⟨r, rfl, Or.inr (by simpa using h2)⟩
    · rintro (h | ⟨r2, hr2, hcase⟩)
      · exact absurd h (by simp)
      · cases hr2
        rcases hcase with hne | hcanc
        · simp [hne]
        · simp [hcanc]

/-- Everything that holds when `deleteReservation` cancels: the guards
that passed, the returned record, and the pointwise shape of the new
store. -/
theorem delete_some_spec (s : Store) (rid : Nat) (req : JSVal) (s' : Store) (r' : Reservation)
    (h : deleteReservation s rid req = some (s', r')) :
    ∃ r, s.reservations rid = some r ∧
      jsStrictEq (.str (toString r.studentId)) req = true ∧
      r.status ≠ "Cancelled" ∧
      r' = { r with status := "Cancelled" } ∧
      s'.nextId = s.nextId ∧
      (∀ i, s'.reservations i = if i = rid then some r' else s.reservations i) ∧
      (∀ k, s'.counters k = s.counters k - ((affectedKeysOf r).count k : Int)) ∧
      (∀ sk m, s'.members sk m = (s.members sk m &&
        !(decide (sk ∈ studentKeysOf r) && decide (m = jsToString req)))) := by
  cases hr : s.reservations rid with
  | none =>
    unfold deleteReservation at h
    rw [hr] at h
    exact absurd h (by simp)
  | some r =>
  rw [deleteReservation_eq_some s rid req r hr] at h
  split_ifs at h with h1 h2
  simp only [Option.some.injEq, Prod.mk.injEq] at h
  obtain ⟨hs', hr'⟩ := h
  obtain ⟨han, har, hac, ham⟩ := applyDelete_spec s rid { r with status := "Cancelled" }
    (getAffectedSlotKeys r.canteenId r.date r.time r.duration)
    (getStudentSlotKeys r.date r.time r.duration) (jsToString req)
  refine ⟨r, rfl, by simpa using h1, by simpa using h2, hr'.symm, ?_, ?_, ?_, ?_⟩
  · rw [← hs']
    exact han
  · intro i
    rw [← hs', har i, ← hr']
  · intro k
    rw [← hs', hac k]
    rfl
  · intro sk m
    rw [← hs', ham sk m]
    rfl

/-- The multiplicity with which the reservation stored at `id`
contributes to the occupancy counter `k` (its footprint counts `k` once
per occurrence, and only while Active). -/
def occContribution (s : Store) (id : Nat) (k : SlotKey) : Nat :=
  match s.reservations id with
  | some r => if r.status == "Active" then (affectedKeysOf r).count k else 0
  | none => 0

/-- The total footprint of all Active reservations on counter `k`. -/
def occTotal (s : Store) (k : SlotKey) : Nat :=
  ∑ id ∈ Finset.range (s.nextId + 1), occContribution s id k

/-- The multiplicity with which the reservation stored at `id`
contributes student `m` to the membership set `sk`. -/
def studContribution (s : Store) (id : Nat) (sk : StudentSlotKey) (m : String) : Nat :=
  match s.reservations id with
  | some r =>
    if r.status == "Active" && toString r.studentId == m then (studentKeysOf r).count sk else 0
  | none => 0

/-- The total footprint of student `m`'s Active reservations on the
membership set `sk`. -/
def studTotal (s : Store) (sk : StudentSlotKey) (m : String) : Nat :=
  ∑ id ∈ Finset.range (s.nextId + 1), studContribution s id sk m

/-- The coherence invariant tying the Redis counters and sets to the
reservation records; it holds in the empty store and is preserved by
every sequentially executed operation. -/
structure StoreInv (env : Env) (s : Store) : Prop where
  idBound : ∀ id r, s.reservations id = some r → 1 ≤ id ∧ id ≤ s.nextId
  timeWf : ∀ id r, s.reservations id = some r → timeRegexTest r.time = true
  statusWf : ∀ id r, s.reservations id = some r → r.status = "Active" ∨ r.status = "Cancelled"
  counterEq : ∀ k, s.counters k = (occTotal s k : Int)
  capBound : ∀ k c, env.getCanteen k.canteenId = some c → s.counters k ≤ (c.capacity : Int)
  memberEq : ∀ sk m, studTotal s sk m = (if s.members sk m then 1 else 0)

theorem inv_empty (env : Env) : StoreInv env emptyStore := by
  constructor
  · intro id r h
    exact absurd h (by simp [emptyStore])
  · intro id r h
    exact absurd h (by simp [emptyStore])
  · intro id r h
    exact absurd h (by simp [emptyStore])
  · intro k
    simp [emptyStore, occTotal, occContribution]
  · intro k c _
    simp [emptyStore, occTotal, occContribution]
  · intro sk m
    simp [emptyStore, studTotal, studContribution]

theorem occTotal_congr (s s2 : Store) (hn : s2.nextId = s.nextId)
    (hres : ∀ i, s2.reservations i = s.reservations i) (k : SlotKey) :
    occTotal s2 k = occTotal s k := by
  unfold occTotal
  rw [hn]
  apply Finset.sum_congr rfl
  intro i _
  unfold occContribution
  rw [hres i]

theorem occTotal_insert (s s2 : Store) (res : Reservation)
    (hn : s2.nextId = s.nextId + 1)
    (hres : ∀ i, s2.reservations i = if i = s.nextId + 1 then some res else s.reservations i)
    (hact : res.status = "Active") (k : SlotKey) :
    occTotal s2 k = occTotal s k + (affectedKeysOf res).count k := by
  unfold occTotal
  rw [hn, Finset.sum_range_succ]
  have hlast : occContribution s2 (s.nextId + 1) k = (affectedKeysOf res).count k := by
    unfold occContribution
    rw [hres (s.nextId + 1), if_pos rfl]
    simp [hact]
  rw [hlast]
  congr 1
  apply Finset.sum_congr rfl
  intro i hi
  simp only [Finset.mem_range] at hi
  unfold occContribution
  rw [hres i, if_neg (by omega)]

theorem studTotal_insert (s s2 : Store) (res : Reservation)
    (hn : s2.nextId = s.nextId + 1)
    (hres : ∀ i, s2.reservations i = if i = s.nextId + 1 then some res else s.reservations i)
    (hact : res.status = "Active") (sk : StudentSlotKey) (m : String) :
    studTotal s2 sk m = studTotal s sk m +
      (if toString res.studentId = m then (studentKeysOf res).count sk else 0) := by
  unfold studTotal
  rw [hn, Finset.sum_range_succ]
  have hlast : studContribution s2 (s.nextId + 1) sk m =
      (if toString res.studentId = m then (studentKeysOf res).count sk else 0) := by
    unfold studContribution
    rw [hres (s.nextId + 1), if_pos rfl]
    by_cases hm : toString res.studentId = m <;> simp [hact, hm]
  rw [hlast]
  congr 1
  apply Finset.sum_congr rfl
  intro i hi
  simp only [Finset.mem_range] at hi
  unfold studContribution
  rw [hres i, if_neg (by omega)]

/-- Preservation of the invariant by a successful `createReservation`. -/
theorem inv_create (env : Env) (now : String) (s : Store) (rd : ReservationData)
    (s2 : Store) (r : Reservation) (hinv : StoreInv env s)
    (hok : createReservation env now s rd = .ok (s2, r)) : StoreInv env s2 := by
  obtain ⟨hval, canteen, hcan, hst, hpast, hvalid, hcnt, hmem, hr, hn, hres, hc, hm⟩ :=
    create_ok_spec env now s rd s2 r hok
  obtain ⟨hsid, hcid, hdate, hreal, htime, hdur, hmin0⟩ := validate_none_spec rd hval
  have hraff : affectedKeysOf r = getAffectedSlotKeys rd.canteenId rd.date rd.time rd.duration := by
    rw [hr]
    rfl
  have hrstud : studentKeysOf r = getStudentSlotKeys rd.date rd.time rd.duration := by
    rw [hr]
    rfl
  have hract : r.status = "Active" := by
    rw [hr]
  have hrsid : r.studentId = rd.studentId := by
    rw [hr]
  have hrtime : r.time = rd.time := by
    rw [hr]
  have hnodupA : (getAffectedSlotKeys rd.canteenId rd.date rd.time rd.duration).Nodup :=
    getAffectedSlotKeys_nodup rd.canteenId rd.date rd.time rd.duration htime
  have hnodupS : (getStudentSlotKeys rd.date rd.time rd.duration).Nodup :=
    getStudentSlotKeys_nodup rd.date rd.time rd.duration htime
  constructor
  · intro id r0 h0
    rw [hres id] at h0
    split_ifs at h0 with hid
    · omega
    · have := hinv.idBound id r0 h0
      omega
  · intro id r0 h0
    rw [hres id] at h0
    split_ifs at h0 with hid
    · cases h0
      rw [hrtime]
      exact htime
    · exact hinv.timeWf id r0 h0
  · intro id r0 h0
    rw [hres id] at h0
    split_ifs at h0 with hid
    · cases h0
      exact Or.inl hract
    · exact hinv.statusWf id r0 h0
  · intro k
    rw [hc k, hinv.counterEq k,
      occTotal_insert s s2 r hn hres hract k, hraff]
    push_cast
    ring
  · intro k c hkc
    rw [hc k]
    by_cases hkmem : k ∈ getAffectedSlotKeys rd.canteenId rd.date rd.time rd.duration
    · have h1 : (getAffectedSlotKeys rd.canteenId rd.date rd.time rd.duration).count k = 1 :=
        List.count_eq_one_of_mem hnodupA hkmem
      have hkcid : k.canteenId = rd.canteenId :=
        getAffectedSlotKeys_canteenId rd.canteenId rd.date rd.time rd.duration k hkmem
      rw [hkcid] at hkc
      rw [hcan] at hkc
      cases hkc
      have := hcnt k hkmem
      omega
    · rw [List.count_eq_zero_of_not_mem hkmem]
      simpa using hinv.capBound k c hkc
  · intro sk m
    rw [studTotal_insert s s2 r hn hres hract sk m, hrstud, hrsid, hm sk m]
    by_cases hms : m = toString rd.studentId
    · subst hms
      by_cases hsk : sk ∈ getStudentSlotKeys rd.date rd.time rd.duration
      · have h1 : (getStudentSlotKeys rd.date rd.time rd.duration).count sk = 1 :=
          List.count_eq_one_of_mem hnodupS hsk
      -- the student was not yet a member, so the old total is 0
        have hold : s.members sk (toString rd.studentId) = false := hmem sk hsk
        rw [hinv.memberEq sk (toString rd.studentId), hold, h1]
        simp [hsk]
      · rw [List.count_eq_zero_of_not_mem hsk, hinv.memberEq sk (toString rd.studentId)]
        simp [hsk]
    · rw [hinv.memberEq sk m]
      have hms2 : (decide (m = toString rd.studentId)) = false := by
        simpa using hms
      rw [if_neg (fun hx => hms (Eq.symm hx))]
      simp [hms2]

theorem jsStrictEq_str_inv (a : String) (v : JSVal) (h : jsStrictEq (.str a) v = true) :
    v = .str a := by
  cases v with
  | str b =>
    simp only [jsStrictEq, beq_iff_eq] at h
    rw [h]
  | num n => exact absurd h (by simp [jsStrictEq])

theorem occTotal_delete (s s2 : Store) (rid : Nat) (r updated : Reservation)
    (hridmem : rid < s.nextId + 1)
    (hold : s.reservations rid = some r)
    (hactive : r.status == "Active")
    (hcanc : updated.status = "Cancelled")
    (hn : s2.nextId = s.nextId)
    (hres : ∀ i, s2.reservations i = if i = rid then some updated else s.reservations i)
    (k : SlotKey) :
    occTotal s k = occTotal s2 k + (affectedKeysOf r).count k := by
  unfold occTotal
  rw [hn]
  have hmem : rid ∈ Finset.range (s.nextId + 1) := Finset.mem_range.mpr hridmem
  rw [← Finset.add_sum_erase _ (fun id => occContribution s id k) hmem,
    ← Finset.add_sum_erase _ (fun id => occContribution s2 id k) hmem]
  have h1 : occContribution s rid k = (affectedKeysOf r).count k := by
    unfold occContribution
    rw [hold]
    simp [hactive]
  have h2 : occContribution s2 rid k = 0 := by
    unfold occContribution
    rw [hres rid, if_pos rfl]
    simp [hcanc]
  have h3 : ∀ i ∈ (Finset.range (s.nextId + 1)).erase rid,
      occContribution s2 i k = occContribution s i k := by
    intro i hi
    have hine : i ≠ rid := Finset.ne_of_mem_erase hi
    unfold occContribution
    rw [hres i, if_neg hine]
  rw [Finset.sum_congr rfl h3, h1, h2]
  ring

theorem studTotal_delete (s s2 : Store) (rid : Nat) (r updated : Reservation)
    (hridmem : rid < s.nextId + 1)
    (hold : s.reservations rid = some r)
    (hactive : r.status == "Active")
    (hcanc : updated.status = "Cancelled")
    (hn : s2.nextId = s.nextId)
    (hres : ∀ i, s2.reservations i = if i = rid then some updated else s.reservations i)
    (sk : StudentSlotKey) (m : String) :
    studTotal s sk m = studTotal s2 sk m +
      (if toString r.studentId = m then (studentKeysOf r).count sk else 0) := by
  unfold studTotal
  rw [hn]
  have hmem : rid ∈ Finset.range (s.nextId + 1) := Finset.mem_range.mpr hridmem
  rw [← Finset.add_sum_erase _ (fun id => studContribution s id sk m) hmem,
    ← Finset.add_sum_erase _ (fun id => studContribution s2 id sk m) hmem]
  have h1 : studContribution s rid sk m =
      (if toString r.studentId = m then (studentKeysOf r).count sk else 0) := by
    unfold studContribution
    rw [hold]
    by_cases hm : toString r.studentId = m <;> simp [hactive, hm]
  have h2 : studContribution s2 rid sk m = 0 := by
    unfold studContribution
    rw [hres rid, if_pos rfl]
    simp [hcanc]
  have h3 : ∀ i ∈ (Finset.range (s.nextId + 1)).erase rid,
      studContribution s2 i sk m = studContribution s i sk m := by
    intro i hi
    have hine : i ≠ rid := Finset.ne_of_mem_erase hi
    unfold studContribution
    rw [hres i, if_neg hine]
  rw [Finset.sum_congr rfl h3, h1, h2]
  ring

/-- Preservation of the invariant by a cancelling `deleteReservation`. -/
theorem inv_delete (env : Env) (s : Store) (rid : Nat) (req : JSVal)
    (s2 : Store) (r' : Reservation) (hinv : StoreInv env s)
    (hdel : deleteReservation s rid req = some (s2, r')) : StoreInv env s2 := by
  obtain ⟨r, hold, hstr, hncanc, hr', hn, hres, hc, hm⟩ := delete_some_spec s rid req s2 r' hdel
  have hreq : req = .str (toString r.studentId) := jsStrictEq_str_inv _ _ hstr
  have hjsReq : jsToString req = toString r.studentId := by
    rw [hreq]
    rfl
  have hactive : r.status = "Active" := by
    rcases hinv.statusWf rid r hold with h | h
    · exact h
    · exact absurd h hncanc
  have hridb := hinv.idBound rid r hold
  have hrtime : timeRegexTest r.time = true := hinv.timeWf rid r hold
  have hnodupS : (studentKeysOf r).Nodup :=
    getStudentSlotKeys_nodup r.date r.time r.duration hrtime
  have hcancU : ({ r with status := "Cancelled" } : Reservation).status = "Cancelled" := rfl
  have hres2 : ∀ i, s2.reservations i =
      if i = rid then some ({ r with status := "Cancelled" }) else s.reservations i := by
    intro i
    rw [hres i, ← hr']
  have hocc := occTotal_delete s s2 rid r ({ r with status := "Cancelled" })
    (by omega) hold (by simp [hactive]) hcancU hn hres2
  have hstud := studTotal_delete s s2 rid r ({ r with status := "Cancelled" })
    (by omega) hold (by simp [hactive]) hcancU hn hres2
  constructor
  · intro id r0 h0
    rw [hn]
    rw [hres id] at h0
    split_ifs at h0 with hid
    · subst hid
      omega
    · exact hinv.idBound id r0 h0
  · intro id r0 h0
    rw [hres id] at h0
    split_ifs at h0 with hid
    · cases h0
      rw [hr']
      exact hrtime
    · exact hinv.timeWf id r0 h0
  · intro id r0 h0
    rw [hres id] at h0
    split_ifs at h0 with hid
    · cases h0
      rw [hr']
      exact Or.inr rfl
    · exact hinv.statusWf id r0 h0
  · intro k
    have h1 := hocc k
    rw [hc k, hinv.counterEq k]
    omega
  · intro k c hkc
    have h0 := hinv.capBound k c hkc
    have h2 := hc k
    have h3 : (0 : Int) ≤ ((affectedKeysOf r).count k : Int) := by positivity
    omega
  · intro sk m
    have h1 := hstud sk m
    rw [hm sk m, hjsReq]
    by_cases hms : toString r.studentId = m
    · subst hms
      by_cases hsk : sk ∈ studentKeysOf r
      · have hcount : (studentKeysOf r).count sk = 1 := List.count_eq_one_of_mem hnodupS hsk
        have hold1 := hinv.memberEq sk (toString r.studentId)
        rw [hcount, if_pos rfl] at h1
        -- the contribution 1 forces the old member flag to be true,
        -- hence the old total is 1 and the remaining total is 0
        have hmem1 : s.members sk (toString r.studentId) = true := by
          by_contra hfalse
          have hf : s.members sk (toString r.studentId) = false := by
            simpa using hfalse
          rw [hf] at hold1
          simp at hold1
          omega
        rw [hmem1] at hold1
        simp at hold1
        have hzero : studTotal s2 sk (toString r.studentId) = 0 := by omega
        rw [hzero, hmem1]
        have hskd : (decide (sk ∈ studentKeysOf r)) = true := by simpa using hsk
        simp [hskd]
      · have hcount : (studentKeysOf r).count sk = 0 := List.count_eq_zero_of_not_mem hsk
        rw [hcount, if_pos rfl] at h1
        have hskd : (decide (sk ∈ studentKeysOf r)) = false := by simpa using hsk
        rw [hskd]
        simp only [Bool.false_and, Bool.not_false, Bool.and_true]
        rw [← hinv.memberEq sk (toString r.studentId)]
        omega
    · rw [if_neg hms] at h1
      have hmd : (decide (m = toString r.studentId)) = false := by
        simp only [decide_eq_false_iff_not]
        exact fun hx => hms (Eq.symm hx)
      rw [hmd]
      simp only [Bool.and_false, Bool.not_false, Bool.and_true]
      rw [← hinv.memberEq sk m]
      omega

/-- The invariant is preserved by every sequential step. -/
theorem inv_step (env : Env) (s : Store) (op : Op) (hinv : StoreInv env s) :
    StoreInv env (step env s op) := by
  cases op with
  | create now rd =>
    cases hc : createReservation env now s rd with
    | ok p =>
      have hstep : step env s (.create now rd) = p.1 := by
        show (match createReservation env now s rd with
          | .ok p => p.1
          | .error _ => s) = p.1
        rw [hc]
      rw [hstep]
      exact inv_create env now s rd p.1 p.2 hinv (by rw [hc])
    | error e =>
      have hstep : step env s (.create now rd) = s := by
        show (match createReservation env now s rd with
          | .ok p => p.1
          | .error _ => s) = s
        rw [hc]
      rw [hstep]
      exact hinv
  | delete rid req =>
    cases hd : deleteReservation s rid req with
    | some p =>
      have hstep : step env s (.delete rid req) = p.1 := by
        show (match deleteReservation s rid req with
          | some p => p.1
          | none => s) = p.1
        rw [hd]
      rw [hstep]
      exact inv_delete env s rid req p.1 p.2 hinv (by rw [hd])
    | none =>
      have hstep : step env s (.delete rid req) = s := by
        show (match deleteReservation s rid req with
          | some p => p.1
          | none => s) = s
        rw [hd]
      rw [hstep]
      exact hinv

theorem inv_run_from (env : Env) (ops : List Op) (s : Store) (hinv : StoreInv env s) :
    StoreInv env (run env s ops) := by
  induction ops generalizing s with
  | nil => exact hinv
  | cons op ops ih => exact ih (step env s op) (inv_step env s op hinv)

/-- Every store reachable from the empty store by sequential operations
satisfies the coherence invariant. -/
theorem inv_run (env : Env) (ops : List Op) : StoreInv env (run env emptyStore ops) :=
  inv_run_from env ops emptyStore (inv_empty env)

/-- Whether the record at `id` is an Active reservation whose occupancy
footprint covers counter `k`. -/
def activeCoverAt (s : Store) (id : Nat) (k : SlotKey) : Bool :=
  match s.reservations id with
  | some r => r.status == "Active" && decide (k ∈ affectedKeysOf r)
  | none => false

/-- The number of Active reservations whose footprint covers `k`. -/
def activeCoverCount (s : Store) (k : SlotKey) : Nat :=
  ((Finset.range (s.nextId + 1)).filter (fun id => activeCoverAt s id k = true)).card

/-- Whether the record at `id` is an Active reservation of student `m`
whose footprint covers the tick `sk` (at any canteen). -/
def activeStudentAt (s : Store) (id : Nat) (sk : StudentSlotKey) (m : String) : Bool :=
  match s.reservations id with
  | some r => r.status == "Active" && toString r.studentId == m && decide (sk ∈ studentKeysOf r)
  | none => false

/-- The number of Active reservations of student `m` covering tick `sk`
at any canteen. -/
def activeStudentCount (s : Store) (sk : StudentSlotKey) (m : String) : Nat :=
  ((Finset.range (s.nextId + 1)).filter (fun id => activeStudentAt s id sk m = true)).card

theorem activeCoverCount_le_occTotal (s : Store) (k : SlotKey) :
    activeCoverCount s k ≤ occTotal s k := by
  unfold activeCoverCount occTotal
  rw [Finset.card_filter]
  apply Finset.sum_le_sum
  intro i _
  unfold activeCoverAt occContribution
  cases hi : s.reservations i with
  | none => simp
  | some r =>
    by_cases hA : (r.status == "Active") = true
    · by_cases hk : k ∈ affectedKeysOf r
      · have hc : 0 < (affectedKeysOf r).count k := List.count_pos_iff.mpr hk
        simp [hA, hk]
      · simp [hA, hk]
    · simp [hA]

theorem activeStudentCount_le_studTotal (s : Store) (sk : StudentSlotKey) (m : String) :
    activeStudentCount s sk m ≤ studTotal s sk m := by
  unfold activeStudentCount studTotal
  rw [Finset.card_filter]
  apply Finset.sum_le_sum
  intro i _
  unfold activeStudentAt studContribution
  cases hi : s.reservations i with
  | none => simp
  | some r =>
    by_cases hA : (r.status == "Active") = true
    · by_cases hM : (toString r.studentId == m) = true
      · by_cases hk : sk ∈ studentKeysOf r
        · have hc : 0 < (studentKeysOf r).count sk := List.count_pos_iff.mpr hk
          simp [hA, hM, hk]
        · simp [hA, hM, hk]
      · simp [hA, hM]
    · simp [hA]

/-- C2: starting from the empty store, after every finite sequence of
sequentially executed `createReservation` and `deleteReservation`
operations, for every canteen and every occupancy key of that canteen
the number of Active reservations whose footprint covers the key never
exceeds the canteen's capacity, and equivalently the raw occupancy
counter never exceeds the capacity. -/
theorem c2_capacity_invariant (env : Env) (ops : List Op) (k : SlotKey) (c : Canteen)
    (hc : env.getCanteen k.canteenId = some c) :
    activeCoverCount (run env emptyStore ops) k ≤ c.capacity ∧
      (run env emptyStore ops).counters k ≤ (c.capacity : Int) := by
  have hinv := inv_run env ops
  have h1 := activeCoverCount_le_occTotal (run env emptyStore ops) k
  have h2 := hinv.counterEq k
  have h3 := hinv.capBound k c hc
  constructor
  · omega
  · exact h3

def c2Canteen : Canteen := ⟨30, [⟨"breakfast", "08:00", "10:00"⟩]⟩

def c2Env : Env :=
  ⟨fun cid => if cid = 1 then some c2Canteen else none, fun sid => sid == 42⟩

def c2Ops : List Op :=
  [Op.create "2000-01-01T00:00:00" ⟨42, 1, "2025-12-15", "08:30", 30⟩]

def c2Key : SlotKey := ⟨1, "2025-12-15", "08:30"⟩

theorem c2_capacity_witness :
    activeCoverCount (run c2Env emptyStore c2Ops) c2Key ≤ 30 ∧
      (run c2Env emptyStore c2Ops).counters c2Key ≤ (30 : Int) :=
  c2_capacity_invariant c2Env c2Ops c2Key c2Canteen rfl

/-- The error message of a `createReservation` call, `none` on success
(the store result is dropped so that outcomes are comparable). -/
def createErr (env : Env) (now : String) (s : Store) (rd : ReservationData) : Option String :=
  match createReservation env now s rd with
  | .ok _ => none
  | .error e => some e

/-- Once every gate up to the conflict checks has passed,
`createReservation` is decided by `checkPhase` alone. -/
theorem create_reduces (env : Env) (now : String) (s : Store) (rd : ReservationData)
    (canteen : Canteen)
    (hval : validateReservationData rd = none)
    (hcan : env.getCanteen rd.canteenId = some canteen)
    (hst : env.studentExists rd.studentId = true)
    (hpast : jsLt (rd.date ++ "T" ++ rd.time ++ ":00") now = false)
    (hvalid : isValidReservationTime canteen.workingHours rd.time rd.duration = true) :
    createReservation env now s rd =
      match checkPhase s (getAffectedSlotKeys rd.canteenId rd.date rd.time rd.duration)
          (getStudentSlotKeys rd.date rd.time rd.duration) canteen.capacity rd.studentId with
      | some e => .error e
      | none =>
        .ok (applyCreate { s with nextId := s.nextId + 1 } (s.nextId + 1)
          ⟨s.nextId + 1, rd.studentId, rd.canteenId, rd.date, rd.time, rd.duration, "Active"⟩
          (getAffectedSlotKeys rd.canteenId rd.date rd.time rd.duration)
          (getStudentSlotKeys rd.date rd.time rd.duration),
          ⟨s.nextId + 1, rd.studentId, rd.canteenId, rd.date, rd.time, rd.duration, "Active"⟩) := by
  unfold createReservation
  rw [hval, hcan]
  simp [hst, hpast, hvalid]

theorem checkPhase_member (s : Store) (ks : List SlotKey) (sks : List StudentSlotKey)
    (cap sid : Nat)
    (hcnt : ∀ k ∈ ks, s.counters k < (cap : Int))
    (hmem : ∃ sk ∈ sks, s.members sk (toString sid) = true) :
    checkPhase s ks sks cap sid = some "Student already has a reservation for this time slot" := by
  unfold checkPhase
  have hf : ks.find? (fun k => (cap : Int) ≤ s.counters k) = none := by
    apply List.find?_eq_none.mpr
    intro k hk
    simp only [decide_eq_true_eq]
    have := hcnt k hk
    omega
  rw [hf]
  obtain ⟨sk, hsk, hm⟩ := hmem
  have hany : sks.any (fun k => s.members k (toString sid)) = true :=
    List.any_eq_true.mpr ⟨sk, hsk, hm⟩
  rw [if_pos hany]

theorem checkPhase_not_none_of_member (s : Store) (ks : List SlotKey)
    (sks : List StudentSlotKey) (cap sid : Nat)
    (hmem : ∃ sk ∈ sks, s.members sk (toString sid) = true) :
    checkPhase s ks sks cap sid ≠ none := by
  unfold checkPhase
  cases hf : ks.find? (fun k => (cap : Int) ≤ s.counters k) with
  | some k => simp
  | none =>
    obtain ⟨sk, hsk, hm⟩ := hmem
    have hany : sks.any (fun k => s.members k (toString sid)) = true :=
      List.any_eq_true.mpr ⟨sk, hsk, hm⟩
    simp [hany]

/-- C3 (amended): starting from the empty store, after every sequential
run, every student holds at most one Active reservation covering any
given date and 30-minute tick, at any canteen; and `createReservation`
never succeeds while the student is a member of an affected global tick
set — it fails with the already-booked conflict when every affected
counter is below capacity, the capacity check taking precedence
otherwise. -/
theorem c3_amended :
    (∀ (env : Env) (ops : List Op) (sk : StudentSlotKey) (m : String),
      activeStudentCount (run env emptyStore ops) sk m ≤ 1) ∧
    (∀ (env : Env) (now : String) (s : Store) (rd : ReservationData) (canteen : Canteen),
      validateReservationData rd = none →
      env.getCanteen rd.canteenId = some canteen →
      env.studentExists rd.studentId = true →
      jsLt (rd.date ++ "T" ++ rd.time ++ ":00") now = false →
      isValidReservationTime canteen.workingHours rd.time rd.duration = true →
      (∃ sk ∈ getStudentSlotKeys rd.date rd.time rd.duration,
        s.members sk (toString rd.studentId) = true) →
      (∃ e, createReservation env now s rd = .error e) ∧
      ((∀ k ∈ getAffectedSlotKeys rd.canteenId rd.date rd.time rd.duration,
          s.counters k < (canteen.capacity : Int)) →
        createReservation env now s rd =
          .error "Student already has a reservation for this time slot")) := by
  constructor
  · intro env ops sk m
    have hinv := inv_run env ops
    have h1 := activeStudentCount_le_studTotal (run env emptyStore ops) sk m
    have h2 := hinv.memberEq sk m
    by_cases hb : (run env emptyStore ops).members sk m <;> simp [hb] at h2 <;> omega
  · intro env now s rd canteen hval hcan hst hpast hvalid hmem
    have hred := create_reduces env now s rd canteen hval hcan hst hpast hvalid
    constructor
    · rw [hred]
      cases hchk : checkPhase s (getAffectedSlotKeys rd.canteenId rd.date rd.time rd.duration)
          (getStudentSlotKeys rd.date rd.time rd.duration) canteen.capacity rd.studentId with
      | some e => exact ⟨e, rfl⟩
      | none =>
        exact absurd hchk (checkPhase_not_none_of_member s _ _ canteen.capacity rd.studentId hmem)
    · intro hcnt
      rw [hred, checkPhase_member s _ _ canteen.capacity rd.studentId hcnt hmem]

def c3Canteen : Canteen := ⟨1, [⟨"breakfast", "08:00", "10:00"⟩]⟩

def c3Env : Env :=
  ⟨fun cid => if cid = 1 then some c3Canteen else if cid = 2 then some c3Canteen else none,
   fun sid => sid == 2 || sid == 3⟩

def c3Ops : List Op :=
  [Op.create "2000-01-01T00:00:00" ⟨3, 2, "2025-12-15", "08:00", 30⟩,
   Op.create "2000-01-01T00:00:00" ⟨2, 1, "2025-12-15", "08:00", 30⟩]

def c3State : Store := run c3Env emptyStore c3Ops

/-- C3 (counterexample): in a reachable state where student 2 is a
member of the affected global tick set but the other canteen's counter
is already at capacity, `createReservation` fails with the fully-booked
message, not the already-booked conflict the claim requires. -/
theorem c3_counterexample :
    c3State.members ⟨"2025-12-15", "08:00"⟩ "2" = true ∧
    createErr c3Env "2000-01-01T00:00:00" c3State ⟨2, 2, "2025-12-15", "08:00", 30⟩ =
      some "Slot slot:2:2025-12-15:08:00 is fully booked" ∧
    "Slot slot:2:2025-12-15:08:00 is fully booked" ≠
      "Student already has a reservation for this time slot" :=
  ⟨by decide, by decide, by decide⟩

def c3OpsW : List Op := [Op.create "2000-01-01T00:00:00" ⟨2, 1, "2025-12-15", "08:00", 30⟩]

def c3StateW : Store := run c3Env emptyStore c3OpsW

theorem c3_amended_witness :
    activeStudentCount c3StateW ⟨"2025-12-15", "08:00"⟩ "2" ≤ 1 ∧
    createReservation c3Env "2000-01-01T00:00:00" c3StateW ⟨2, 2, "2025-12-15", "08:00", 30⟩ =
      .error "Student already has a reservation for this time slot" := by
  constructor
  · exact c3_amended.1 c3Env c3OpsW ⟨"2025-12-15", "08:00"⟩ "2"
  · exact (c3_amended.2 c3Env "2000-01-01T00:00:00" c3StateW ⟨2, 2, "2025-12-15", "08:00", 30⟩
      c3Canteen (by decide) rfl (by decide) (by decide) (by decide)
      ⟨⟨"2025-12-15", "08:00"⟩, by decide, by decide⟩).2 (by decide)

theorem slot_msg_ne (a b : String) :
    ("Slot " ++ a) ++ b ≠ "Invalid reservation time or duration" := by
  intro h
  have hd := congrArg (fun s => s.data.take 2) h
  simp only [String.data_append] at hd
  simp only [List.append_assoc, List.cons_append, List.nil_append] at hd
  have hL : ('S' :: 'l' :: 'o' :: 't' :: ' ' :: (a.data ++ b.data)).take 2 = ['S', 'l'] := rfl
  rw [hL] at hd
  exact absurd hd (by decide)

theorem checkPhase_some_shape (s : Store) (ks : List SlotKey) (sks : List StudentSlotKey)
    (cap sid : Nat) (e : String) (h : checkPhase s ks sks cap sid = some e) :
    (∃ k, e = ("Slot " ++ slotKeyString k) ++ " is fully booked") ∨
    e = "Student already has a reservation for this time slot" := by
  unfold checkPhase at h
  cases hf : ks.find? (fun k => (cap : Int) ≤ s.counters k) with
  | some k =>
    rw [hf] at h
    left
    refine ⟨k, ?_⟩
    have := Option.some.inj h
    rw [← this]
  | none =>
    rw [hf] at h
    split_ifs at h with hany
    right
    exact (Option.some.inj h).symm

/-- C4 (amended): for a 60-minute request that passes field validation
(which already forces minute 0) and the existence and past-date gates,
`createReservation` fails with the invalid-time failure exactly when not
both the start tick and the `HH:30` tick of the same hour fall inside
some meal period — the two halves need not resolve to the same meal. -/
theorem c4_amended (env : Env) (now : String) (s : Store) (rd : ReservationData)
    (canteen : Canteen)
    (hval : validateReservationData rd = none)
    (hcan : env.getCanteen rd.canteenId = some canteen)
    (hst : env.studentExists rd.studentId = true)
    (hpast : jsLt (rd.date ++ "T" ++ rd.time ++ ":00") now = false)
    (hdur : rd.duration = 60) :
    createReservation env now s rd = .error "Invalid reservation time or duration" ↔
      ¬(isTimeInMealPeriod canteen.workingHours rd.time = true ∧
        isTimeInMealPeriod canteen.workingHours
          (pad2 (parseTimeParts rd.time).1 ++ ":30") = true) := by
  obtain ⟨hx1, hx2, hx3, hx4, htime, hx5, hmin0⟩ := validate_none_spec rd hval
  have hm0 := hmin0 hdur
  have hiv : isValidReservationTime canteen.workingHours rd.time rd.duration =
      (isTimeInMealPeriod canteen.workingHours rd.time &&
       isTimeInMealPeriod canteen.workingHours (pad2 (parseTimeParts rd.time).1 ++ ":30")) := by
    unfold isValidReservationTime
    rw [hdur]
    by_cases h1 : isTimeInMealPeriod canteen.workingHours rd.time
    · simp [h1, hm0]
    · simp [h1]
  constructor
  · intro herr hand
    obtain ⟨h1, h2⟩ := hand
    have hvalid : isValidReservationTime canteen.workingHours rd.time rd.duration = true := by
      rw [hiv, h1, h2]
      rfl
    have hred := create_reduces env now s rd canteen hval hcan hst hpast hvalid
    rw [hred] at herr
    cases hchk : checkPhase s (getAffectedSlotKeys rd.canteenId rd.date rd.time rd.duration)
        (getStudentSlotKeys rd.date rd.time rd.duration) canteen.capacity rd.studentId with
    | some e =>
      rw [hchk] at herr
      have he : e = "Invalid reservation time or duration" := by
        simpa using herr
      rcases checkPhase_some_shape s _ _ canteen.capacity rd.studentId e hchk with ⟨k, hk⟩ | hk
      · rw [hk] at he
        exact slot_msg_ne (slotKeyString k) " is fully booked" he
      · rw [hk] at he
        exact absurd he (by decide)
    | none =>
      rw [hchk] at herr
      exact absurd herr (by simp)
  · intro hneg
    have hval2 : isValidReservationTime canteen.workingHours rd.time rd.duration = false := by
      rw [hiv]
      by_cases h1 : isTimeInMealPeriod canteen.workingHours rd.time
      · by_cases h2 : isTimeInMealPeriod canteen.workingHours
            (pad2 (parseTimeParts rd.time).1 ++ ":30")
        · exact absurd ⟨h1, h2⟩ hneg
        · simp [h2]
      · simp [h1]
    unfold createReservation
    rw [hval, hcan]
    simp [hst, hpast, hval2]

def c4Canteen : Canteen := ⟨5, [⟨"breakfast", "08:00", "08:30"⟩, ⟨"lunch", "08:30", "09:30"⟩]⟩

def c4Env : Env := ⟨fun cid => if cid = 1 then some c4Canteen else none, fun sid => sid == 42⟩

def c4Rd : ReservationData := ⟨42, 1, "2025-12-15", "08:00", 60⟩

/-- C4 (counterexample): a 60-minute request at 08:00 whose first half
lies in breakfast and whose second half lies in lunch passes every gate
and is accepted, although the claim requires the invalid-time failure
whenever the two halves do not resolve to the same meal period. -/
theorem c4_counterexample :
    createErr c4Env "2000-01-01T00:00:00" emptyStore c4Rd = none ∧
    (parseTimeParts "08:00").2 = 0 ∧
    getMealForTime c4Canteen.workingHours "08:00" = some "breakfast" ∧
    getMealForTime c4Canteen.workingHours "08:30" = some "lunch" ∧
    ("breakfast" : String) ≠ "lunch" :=
  ⟨by decide, by decide, by decide, by decide, by decide⟩

def c4CanteenW : Canteen := ⟨5, [⟨"breakfast", "08:00", "09:30"⟩]⟩

def c4EnvW : Env := ⟨fun cid => if cid = 1 then some c4CanteenW else none, fun sid => sid == 42⟩

theorem c4_amended_witness :
    createReservation c4EnvW "2000-01-01T00:00:00" emptyStore ⟨42, 1, "2025-12-15", "09:00", 60⟩ =
      .error "Invalid reservation time or duration" :=
  (c4_amended c4EnvW "2000-01-01T00:00:00" emptyStore ⟨42, 1, "2025-12-15", "09:00", 60⟩
      c4CanteenW (by decide) rfl (by decide) (by decide) rfl).mpr (by decide)

/-- Booking then immediately cancelling with the same student id returns
every occupancy counter and every membership set exactly to its
pre-booking value. -/
theorem create_delete_roundtrip (env : Env) (now : String) (s : Store) (rd : ReservationData)
    (s2 : Store) (r : Reservation)
    (hok : createReservation env now s rd = .ok (s2, r)) :
    ∃ s3, deleteReservation s2 r.id (.str (toString r.studentId)) =
        some (s3, { r with status := "Cancelled" }) ∧
      (∀ k, s3.counters k = s.counters k) ∧
      (∀ sk m, s3.members sk m = s.members sk m) := by
  obtain ⟨hval, canteen, hcan, hst, hpast, hvalid, hcnt, hmem, hr, hn, hres, hc, hm⟩ :=
    create_ok_spec env now s rd s2 r hok
  have hrid : r.id = s.nextId + 1 := by rw [hr]
  have hlook : s2.reservations r.id = some r := by
    rw [hres r.id, if_pos hrid]
  have hstrict : jsStrictEq (.str (toString r.studentId)) (.str (toString r.studentId)) = true := by
    simp [jsStrictEq]
  have hstat : (r.status == "Cancelled") = false := by
    rw [hr]
    show (("Active" : String) == "Cancelled") = false
    decide
  have heq := deleteReservation_eq_some s2 r.id (.str (toString r.studentId)) r hlook
  rw [hstrict] at heq
  simp only [Bool.not_true, Bool.false_eq_true, if_false] at heq
  rw [hstat] at heq
  simp only [Bool.false_eq_true, if_false] at heq
  have haff : getAffectedSlotKeys r.canteenId r.date r.time r.duration =
      getAffectedSlotKeys rd.canteenId rd.date rd.time rd.duration := by
    rw [hr]
  have hstud : getStudentSlotKeys r.date r.time r.duration =
      getStudentSlotKeys rd.date rd.time rd.duration := by
    rw [hr]
  have hsid : toString r.studentId = toString rd.studentId := by
    rw [hr]
  obtain ⟨han, har, hac, ham⟩ := applyDelete_spec s2 r.id ({ r with status := "Cancelled" })
    (getAffectedSlotKeys r.canteenId r.date r.time r.duration)
    (getStudentSlotKeys r.date r.time r.duration)
    (jsToString (.str (toString r.studentId)))
  refine ⟨_, heq, ?_, ?_⟩
  · intro k
    rw [hac k, haff, hc k]
    omega
  · intro sk m
    rw [ham sk m, hm sk m, hstud]
    have hmember : jsToString (.str (toString r.studentId)) = toString rd.studentId := by
      rw [← hsid]
      rfl
    rw [hmember]
    by_cases hin : sk ∈ getStudentSlotKeys rd.date rd.time rd.duration
    · by_cases hm2 : m = toString rd.studentId
      · have hold : s.members sk (toString rd.studentId) = false := hmem sk hin
        subst hm2
        simp [hin, hold]
      · simp [hm2]
    · simp [hin]

/-- C5: for every store state, a booking accepted by `createReservation`
followed immediately by `deleteReservation` on the returned id with the
same student id succeeds and returns every occupancy counter and every
membership set exactly to its pre-booking value. -/
theorem c5_cancel_roundtrip (env : Env) (now : String) (s : Store) (rd : ReservationData)
    (s2 : Store) (r : Reservation)
    (hok : createReservation env now s rd = .ok (s2, r)) :
    ∃ s3 r3, deleteReservation s2 r.id (.str (toString r.studentId)) = some (s3, r3) ∧
      (∀ k, s3.counters k = s.counters k) ∧
      (∀ sk m, s3.members sk m = s.members sk m) := by
  obtain ⟨s3, hdel, hcc, hmm⟩ := create_delete_roundtrip env now s rd s2 r hok
  exact ⟨s3, { r with status := "Cancelled" }, hdel, hcc, hmm⟩

def c5Env : Env :=
  ⟨fun cid => if cid = 1 then some ⟨30, [⟨"breakfast", "08:00", "10:00"⟩]⟩ else none,
   fun sid => sid == 7⟩

def c5Rd : ReservationData := ⟨7, 1, "2025-12-15", "08:00", 60⟩

def c5Out : Store × Reservation :=
  match createReservation c5Env "2000-01-01T00:00:00" emptyStore c5Rd with
  | .ok p => p
  | .error _ => (emptyStore, ⟨0, 0, 0, "", "", 0, ""⟩)

theorem c5_cancel_witness :
    ∃ s3 r3, deleteReservation c5Out.1 c5Out.2.id (.str (toString c5Out.2.studentId)) =
        some (s3, r3) ∧
      (∀ k, s3.counters k = emptyStore.counters k) ∧
      (∀ sk m, s3.members sk m = emptyStore.members sk m) :=
  c5_cancel_roundtrip c5Env "2000-01-01T00:00:00" emptyStore c5Rd c5Out.1 c5Out.2 rfl

/-- C6: an accepted booking increments exactly the counters of its
affected keys and adds the student to exactly its affected global tick
sets; for duration 60 these are precisely the two distinct ticks
`HH:00` and `HH:30` of the validated start hour (and the start time is
`HH:00`), for duration 30 exactly the one tick of the start time; and
cancelling the returned reservation restores every counter and set. -/
theorem c6_footprint (env : Env) (now : String) (s : Store) (rd : ReservationData)
    (s2 : Store) (r : Reservation)
    (hok : createReservation env now s rd = .ok (s2, r)) :
    (∀ k, s2.counters k = s.counters k +
      ((getAffectedSlotKeys rd.canteenId rd.date rd.time rd.duration).count k : Int)) ∧
    (∀ sk m, s2.members sk m = (s.members sk m ||
      (decide (sk ∈ getStudentSlotKeys rd.date rd.time rd.duration) &&
       decide (m = toString rd.studentId)))) ∧
    (rd.duration = 60 →
      rd.time = pad2 (parseTimeParts rd.time).1 ++ ":00" ∧
      getAffectedSlotKeys rd.canteenId rd.date rd.time rd.duration =
        [⟨rd.canteenId, rd.date, rd.time⟩,
         ⟨rd.canteenId, rd.date, pad2 (parseTimeParts rd.time).1 ++ ":30"⟩] ∧
      getStudentSlotKeys rd.date rd.time rd.duration =
        [⟨rd.date, rd.time⟩, ⟨rd.date, pad2 (parseTimeParts rd.time).1 ++ ":30"⟩] ∧
      rd.time ≠ pad2 (parseTimeParts rd.time).1 ++ ":30") ∧
    (rd.duration = 30 →
      getAffectedSlotKeys rd.canteenId rd.date rd.time rd.duration =
        [⟨rd.canteenId, rd.date, rd.time⟩] ∧
      getStudentSlotKeys rd.date rd.time rd.duration = [⟨rd.date, rd.time⟩]) ∧
    (∀ s3 r3, deleteReservation s2 r.id (.str (toString r.studentId)) = some (s3, r3) →
      (∀ k, s3.counters k = s.counters k) ∧
      (∀ sk m, s3.members sk m = s.members sk m)) := by
  obtain ⟨hval, canteen, hcan, hst, hpast, hvalid, hcnt, hmem, hr, hn, hres, hc, hm⟩ :=
    create_ok_spec env now s rd s2 r hok
  obtain ⟨hsid, hcid, hdate, hreal, htime, hdur, hmin0⟩ := validate_none_spec rd hval
  refine ⟨hc, hm, ?_, ?_, ?_⟩
  · intro h60
    have hm0 := hmin0 h60
    obtain ⟨hh23, hm59, hcanon⟩ := time_canonical rd.time htime
    have hnext : nextHalfHour rd.time = pad2 (parseTimeParts rd.time).1 ++ ":30" :=
      nextHalfHour_of_min0 rd.time hm0
    have hne : rd.time ≠ pad2 (parseTimeParts rd.time).1 ++ ":30" := by
      intro hx
      exact nextHalfHour_ne rd.time htime (by rw [hnext, ← hx])
    have hp0 : pad2 0 = "00" := rfl
    have ht00 : rd.time = pad2 (parseTimeParts rd.time).1 ++ ":00" := by
      conv_lhs => rw [hcanon, hm0, hp0]
      apply String.ext
      simp [String.data_append]
    refine ⟨ht00, ?_, ?_, hne⟩
    · unfold getAffectedSlotKeys
      rw [h60]
      simp [hnext]
    · unfold getStudentSlotKeys
      rw [h60]
      simp [hnext]
  · intro h30
    constructor
    · unfold getAffectedSlotKeys
      rw [h30]
      simp
    · unfold getStudentSlotKeys
      rw [h30]
      simp
  · intro s3 r3 hdel
    obtain ⟨s3c, hdelc, hcc, hmm⟩ := create_delete_roundtrip env now s rd s2 r hok
    rw [hdelc] at hdel
    have hinj := Option.some.inj hdel
    have hs3 : s3c = s3 := congrArg Prod.fst hinj
    subst hs3
    exact ⟨hcc, hmm⟩

def c6Out : Store × Reservation :=
  match createReservation c5Env "2000-01-01T00:00:00" emptyStore ⟨7, 1, "2025-12-15", "09:00", 60⟩ with
  | .ok p => p
  | .error _ => (emptyStore, ⟨0, 0, 0, "", "", 0, ""⟩)

theorem c6_footprint_witness :
    (∀ k, c6Out.1.counters k = emptyStore.counters k +
      ((getAffectedSlotKeys 1 "2025-12-15" "09:00" 60).count k : Int)) ∧
    (∀ sk m, c6Out.1.members sk m = (emptyStore.members sk m ||
      (decide (sk ∈ getStudentSlotKeys "2025-12-15" "09:00" 60) && decide (m = toString 7)))) ∧
    ((60 : Nat) = 60 →
      ("09:00" : String) = pad2 (parseTimeParts "09:00").1 ++ ":00" ∧
      getAffectedSlotKeys 1 "2025-12-15" "09:00" 60 =
        [⟨1, "2025-12-15", "09:00"⟩, ⟨1, "2025-12-15", pad2 (parseTimeParts "09:00").1 ++ ":30"⟩] ∧
      getStudentSlotKeys "2025-12-15" "09:00" 60 =
        [⟨"2025-12-15", "09:00"⟩, ⟨"2025-12-15", pad2 (parseTimeParts "09:00").1 ++ ":30"⟩] ∧
      ("09:00" : String) ≠ pad2 (parseTimeParts "09:00").1 ++ ":30") ∧
    ((60 : Nat) = 30 →
      getAffectedSlotKeys 1 "2025-12-15" "09:00" 60 = [⟨1, "2025-12-15", "09:00"⟩] ∧
      getStudentSlotKeys "2025-12-15" "09:00" 60 = [⟨"2025-12-15", "09:00"⟩]) ∧
    (∀ s3 r3, deleteReservation c6Out.1 c6Out.2.id (.str (toString c6Out.2.studentId)) =
        some (s3, r3) →
      (∀ k, s3.counters k = emptyStore.counters k) ∧
      (∀ sk m, s3.members sk m = emptyStore.members sk m)) :=
  c6_footprint c5Env "2000-01-01T00:00:00" emptyStore ⟨7, 1, "2025-12-15", "09:00", 60⟩
    c6Out.1 c6Out.2 rfl

def c7Hours : List Period := [⟨"breakfast", "08:00", "10:00"⟩]

def c7ShortHours : List Period := [⟨"breakfast", "08:00", "09:00"⟩]

/-- C7 (code-bug evidence): when the per-day effective start time has
minute 30, the calendar derivation emits 60-minute slots starting at
`:30` — contradicting its own doc comment ("60-min slots start only at
even hours") — and its second-half meal check then compares the slot's
`HH:30` tick with itself, so a 60-minute slot whose true second half
lies outside every meal period is still emitted. -/
theorem c7_sixty_slot_alignment :
    generateTimeSlots "2025-12-15" "08:30" "2025-12-15" "10:00" 60 c7Hours =
      [⟨"2025-12-15", "08:30", "breakfast"⟩, ⟨"2025-12-15", "09:00", "breakfast"⟩] ∧
    (parseTimeParts "08:30").2 = 30 ∧
    generateTimeSlots "2025-12-15" "08:30" "2025-12-15" "09:30" 60 c7ShortHours =
      [⟨"2025-12-15", "08:30", "breakfast"⟩] ∧
    getMealForTime c7ShortHours "09:00" = none :=
  ⟨by decide, by decide, by decide, by decide⟩

def c8Canteen : Canteen := ⟨10, [⟨"breakfast", "08:00", "10:00"⟩]⟩

def c8Env : Env := ⟨fun cid => if cid = 1 then some c8Canteen else none, fun sid => sid == 42⟩

def c8Store : Store :=
  { emptyStore with counters := fun k => if k = ⟨1, "2025-12-15", "09:00"⟩ then 5 else 0 }

/-- C8 (counterexample): for the 60-minute slot derived at 08:30 (via
the `:30`-start anomaly of C7) the code reads the 08:30 counter twice
and reports remainingCapacity 10, while the claimed maximum over the two
constituent ticks 08:30 and 09:00 gives 5. -/
theorem c8_counterexample :
    getCanteenStatus c8Env c8Store 1 "2025-12-15" "08:30" "2025-12-15" "10:00" 60 =
      some [⟨"2025-12-15", "breakfast", "08:30", 10⟩, ⟨"2025-12-15", "breakfast", "09:00", 5⟩] ∧
    max 0 ((c8Canteen.capacity : Int) -
      specEffectiveOccupancy c8Store 1 "2025-12-15" "08:30" 60) = 5 ∧
    (10 : Int) ≠ 5 :=
  ⟨by decide, by decide, by decide⟩

/-- C8 (amended): a nonexistent canteen yields the null result, and
every reported row comes from a derived slot with
`remainingCapacity = max(0, capacity - effectiveOccupancy)`, where the
effective occupancy is the claimed one — the single tick's counter for
duration 30, the maximum over the two constituent ticks for duration
60 — for every slot starting at minute 00; a 60-minute slot starting at
`:30` (derivable only through the C7 anomaly) instead reads its own
counter twice. -/
theorem c8_amended (env : Env) (s : Store) (cid : Nat) (sd st ed et : String) (duration : Nat) :
    (getCanteenStatus env s cid sd st ed et duration = none ↔ env.getCanteen cid = none) ∧
    (∀ canteen, env.getCanteen cid = some canteen →
      ∀ out, getCanteenStatus env s cid sd st ed et duration = some out →
        ∀ e ∈ out, ∃ slot ∈ generateTimeSlots sd st ed et duration canteen.workingHours,
          e.date = slot.date ∧ e.meal = slot.meal ∧ e.startTime = slot.time ∧
          (((parseTimeParts slot.time).2 = 0 ∨ duration ≠ 60) →
            e.remainingCapacity =
              max 0 ((canteen.capacity : Int) -
                specEffectiveOccupancy s cid slot.date slot.time duration))) := by
  constructor
  · unfold getCanteenStatus
    cases hcan : env.getCanteen cid with
    | none => simp
    | some c => simp
  · intro canteen hcan out hout e he
    unfold getCanteenStatus at hout
    rw [hcan] at hout
    have hout2 := (Option.some.inj hout).symm
    subst hout2
    obtain ⟨slot, hslot, hfe⟩ := List.mem_map.mp he
    refine ⟨slot, hslot, ?_⟩
    rw [← hfe]
    unfold statusRow
    by_cases hdur : (duration == 60) = true
    · have hdur' : duration = 60 := by simpa using hdur
      rw [if_pos hdur]
      refine ⟨rfl, rfl, rfl, ?_⟩
      intro hcase
      have hm0 : (parseTimeParts slot.time).2 = 0 := by
        rcases hcase with h | h
        · exact h
        · exact absurd hdur' h
      have hnext : nextHalfHour slot.time = pad2 (parseTimeParts slot.time).1 ++ ":30" :=
        nextHalfHour_of_min0 slot.time hm0
      unfold specEffectiveOccupancy
      rw [if_pos hdur, hnext]
    · rw [if_neg hdur]
      refine ⟨rfl, rfl, rfl, ?_⟩
      intro hcase
      unfold specEffectiveOccupancy
      rw [if_neg hdur]

def c8OutList : List StatusSlot :=
  (getCanteenStatus c8Env c8Store 1 "2025-12-15" "08:00" "2025-12-15" "10:00" 60).getD []

theorem c8_amended_witness :
    ∃ slot ∈ generateTimeSlots "2025-12-15" "08:00" "2025-12-15" "10:00" 60
        c8Canteen.workingHours,
      (⟨"2025-12-15", "breakfast", "08:00", (10 : Int)⟩ : StatusSlot).date = slot.date ∧
      (⟨"2025-12-15", "breakfast", "08:00", (10 : Int)⟩ : StatusSlot).meal = slot.meal ∧
      (⟨"2025-12-15", "breakfast", "08:00", (10 : Int)⟩ : StatusSlot).startTime = slot.time ∧
      (((parseTimeParts slot.time).2 = 0 ∨ (60 : Nat) ≠ 60) →
        (⟨"2025-12-15", "breakfast", "08:00", (10 : Int)⟩ : StatusSlot).remainingCapacity =
          max 0 ((c8Canteen.capacity : Int) -
            specEffectiveOccupancy c8Store 1 slot.date slot.time 60)) :=
  (c8_amended c8Env c8Store 1 "2025-12-15" "08:00" "2025-12-15" "10:00" 60).2 c8Canteen rfl
    c8OutList rfl ⟨"2025-12-15", "breakfast", "08:00", 10⟩ (by decide)

/-- C9: `deleteReservation` returns the not-applicable `none` result
(leaving every record, counter and set unchanged) exactly when the id
does not exist, the stored studentId does not strictly match the
requester, or the record is already Cancelled; in every other case it
flips the status to Cancelled, decrements exactly the counters the
booking incremented, removes the student from exactly the sets it was
added to, and returns the post-cancellation record. -/
theorem c9_delete_cases (s : Store) (rid : Nat) (req : JSVal) :
    (deleteReservation s rid req = none ↔
      s.reservations rid = none ∨
      ∃ r, s.reservations rid = some r ∧
        (jsStrictEq (.str (toString r.studentId)) req = false ∨ r.status = "Cancelled")) ∧
    (∀ s2 r2, deleteReservation s rid req = some (s2, r2) →
      ∃ r, s.reservations rid = some r ∧
        jsStrictEq (.str (toString r.studentId)) req = true ∧
        r.status ≠ "Cancelled" ∧
        r2 = { r with status := "Cancelled" } ∧
        s2.reservations rid = some r2 ∧
        (∀ i, i ≠ rid → s2.reservations i = s.reservations i) ∧
        (∀ k, s2.counters k = s.counters k - ((affectedKeysOf r).count k : Int)) ∧
        (∀ sk m, s2.members sk m = (s.members sk m &&
          !(decide (sk ∈ studentKeysOf r) && decide (m = toString r.studentId))))) := by
  refine ⟨delete_none_iff s rid req, ?_⟩
  intro s2 r2 hdel
  obtain ⟨r, hold, hstr, hncanc, hr2, hn, hres, hc, hm⟩ := delete_some_spec s rid req s2 r2 hdel
  have hreq : req = .str (toString r.studentId) := jsStrictEq_str_inv _ _ hstr
  refine ⟨r, hold, hstr, hncanc, hr2, ?_, ?_, hc, ?_⟩
  · rw [hres rid, if_pos rfl]
  · intro i hi
    rw [hres i, if_neg hi]
  · intro sk m
    rw [hm sk m]
    have hj : jsToString req = toString r.studentId := by
      rw [hreq]
      rfl
    rw [hj]

def c9Res : Reservation := ⟨1, 42, 1, "2025-12-15", "08:00", 30, "Active"⟩

def c9Store : Store :=
  { emptyStore with
    reservations := fun i => if i = 1 then some c9Res else none
    nextId := 1
    counters := fun k => if k = ⟨1, "2025-12-15", "08:00"⟩ then 1 else 0
    members := fun sk m => decide (sk = ⟨"2025-12-15", "08:00"⟩) && (m == "42") }

def c9Del : Store × Reservation :=
  (deleteReservation c9Store 1 (.str "42")).getD (emptyStore, c9Res)

theorem c9_delete_witness :
    ∃ r, c9Store.reservations 1 = some r ∧
      jsStrictEq (.str (toString r.studentId)) (.str "42") = true ∧
      r.status ≠ "Cancelled" ∧
      c9Del.2 = { r with status := "Cancelled" } ∧
      c9Del.1.reservations 1 = some c9Del.2 ∧
      (∀ i, i ≠ 1 → c9Del.1.reservations i = c9Store.reservations i) ∧
      (∀ k, c9Del.1.counters k = c9Store.counters k - ((affectedKeysOf r).count k : Int)) ∧
      (∀ sk m, c9Del.1.members sk m = (c9Store.members sk m &&
        !(decide (sk ∈ studentKeysOf r) && decide (m = toString r.studentId)))) :=
  (c9_delete_cases c9Store 1 (.str "42")).2 c9Del.1 c9Del.2 rfl

/-- C10: the requester comparison of `deleteReservation` is JavaScript
strict inequality against the stored string, so a numeric requester id
never matches — even when numerically equal to the stored id — and a
cancellation can only be produced by the exactly string-equal requester
id. -/
theorem c10_strict_requester (s : Store) (rid : Nat) (r : Reservation)
    (h : s.reservations rid = some r) :
    (∀ n : Int, deleteReservation s rid (.num n) = none) ∧
    (∀ req s2 r2, deleteReservation s rid req = some (s2, r2) →
      req = .str (toString r.studentId)) := by
  constructor
  · intro n
    rw [deleteReservation_eq_some s rid (.num n) r h]
    simp [jsStrictEq]
  · intro req s2 r2 hdel
    obtain ⟨r0, hold, hstr, _, _, _, _, _, _⟩ := delete_some_spec s rid req s2 r2 hdel
    have hr0 : r0 = r := by
      rw [h] at hold
      exact (Option.some.inj hold).symm
    subst hr0
    exact jsStrictEq_str_inv _ _ hstr

theorem c10_strict_witness :
    deleteReservation c9Store 1 (.num 42) = none ∧ toString c9Res.studentId = "42" :=
  ⟨(c10_strict_requester c9Store 1 c9Res rfl).1 42, rfl⟩

def c1Canteen : Canteen := ⟨1, [⟨"breakfast", "08:00", "10:00"⟩]⟩

def c1Env : Env :=
  ⟨fun cid => if cid = 1 then some c1Canteen else none, fun sid => sid == 1 || sid == 2⟩

def c1Keys : List SlotKey := getAffectedSlotKeys 1 "2025-12-15" "08:00" 30

def c1SKeys : List StudentSlotKey := getStudentSlotKeys "2025-12-15" "08:00" 30

def c1ResA : Reservation := ⟨1, 1, 1, "2025-12-15", "08:00", 30, "Active"⟩

def c1ResB : Reservation := ⟨2, 2, 1, "2025-12-15", "08:00", 30, "Active"⟩

/-- The store produced by the interleaving: both check transactions read
the empty store, then both id allocations and both write transactions
run. -/
def c1Racy : Store :=
  applyCreate (applyCreate { emptyStore with nextId := 2 } 1 c1ResA c1Keys c1SKeys)
    2 c1ResB c1Keys c1SKeys

/-- C1 (code-bug evidence): the check transaction and the write
transaction of `createReservation` are two separate atomic units, so in
the interleaving where both callers run their check phase before either
write phase, both capacity checks pass on the last free seat and the
final counter exceeds the capacity — while the same second request,
executed sequentially after the first, is correctly refused. -/
theorem c1_race_overbooks :
    checkPhase emptyStore c1Keys c1SKeys c1Canteen.capacity 1 = none ∧
    checkPhase emptyStore c1Keys c1SKeys c1Canteen.capacity 2 = none ∧
    c1Racy.counters ⟨1, "2025-12-15", "08:00"⟩ = 2 ∧
    c1Canteen.capacity = 1 ∧
    ¬(c1Racy.counters ⟨1, "2025-12-15", "08:00"⟩ ≤ (c1Canteen.capacity : Int)) ∧
    createErr c1Env "2000-01-01T00:00:00"
      (run c1Env emptyStore [Op.create "2000-01-01T00:00:00" ⟨1, 1, "2025-12-15", "08:00", 30⟩])
      ⟨2, 1, "2025-12-15", "08:00", 30⟩ =
      some "Slot slot:1:2025-12-15:08:00 is fully booked" :=
  ⟨by decide, by decide, by decide, by decide, by decide, by decide⟩
